import Mathlib

/-
  Verification development for the 2D wall-geometry core of the
  Kitchen-studio repository.

  Shallow embedding conventions:
  * Coordinates are exact numbers (no floating point): the union tracer and
    polygon simplifier (src/utils/wallUnion.ts and the wall-merge hook), which
    only ever compare distances, are embedded over an arbitrary linearly
    ordered commutative ring, with every comparison of a Euclidean distance
    against a bound written as the equivalent comparison of the squared
    distance against the squared bound.
    The equivalence (for nonnegative bounds, which is the case at every call
    site: the bounds are the literal tolerances 1 and 2) is proved once over
    the reals in theorem dist_lt_iff_sq below.
  * The corner resolvers and the floor-polygon builder, whose outputs contain
    genuine square roots (unit-vector normalisation, miter clamping), are
    embedded over the reals with Real.sqrt.
  * The source field named end of a Wall is rendered endp (end is a Lean
    keyword).  JS array mutation is rendered by List.set, JS find by
    List.find?, JS stable sort by an insertion sort.
-/

namespace WU

/-
  The union tracers and the polygon simplifier use only ring operations and
  order comparisons on coordinates (no division and no square-root values
  appear in their outputs), so they are embedded over an arbitrary linearly
  ordered commutative ring R.  General theorems hold for every such R
  (in particular the reals); concrete runs are evaluated at R = Int.
  Every comparison of a Euclidean distance against a bound is written as the
  equivalent comparison of the squared distance against the squared bound;
  the equivalence (for nonnegative bounds, which is the case at every call
  site: the bounds are the literal tolerances 1 and 2) is proved once over
  the reals in theorem dist_lt_iff_sq below.
-/

variable {R : Type} [LinearOrderedCommRing R]

/-- Point2D for the comparison-only components. -/
structure Pt (R : Type) where
  x : R
  y : R
deriving DecidableEq

/-- Edge of a wall quadrilateral as used by the union tracers
(wallUnion.ts interface Edge and its copy in the wall-merge hook):
a directed segment tagged with its owner wall id. -/
structure Edge (R : Type) where
  start : Pt R
  endp : Pt R
  wallId : String
deriving DecidableEq

/-- Squared Euclidean distance.  The source computes
distanceBetweenPoints = sqrt of this quantity and only compares it against
nonnegative bounds, so every comparison below uses the squared form
(see dist_lt_iff_sq for the justification). -/
def dSq (p1 p2 : Pt R) : R :=
  (p2.x - p1.x) * (p2.x - p1.x) + (p2.y - p1.y) * (p2.y - p1.y)

/-- Comparison distanceBetweenPoints p1 p2 < c, encoded on squares. -/
def distLt (p1 p2 : Pt R) (c : R) : Bool :=
  decide (dSq p1 p2 < c * c)

/-- checkCollinear from wallUnion.ts: cross-product magnitude below
tolerance. -/
def checkCollinear (p1 p2 p3 : Pt R) (tolerance : R) : Bool :=
  decide (|(p2.x - p1.x) * (p3.y - p1.y) - (p2.y - p1.y) * (p3.x - p1.x)| < tolerance)

/-- Default point used for list indexing that the source performs directly
on arrays; every use below is within bounds. -/
def pq0 : Pt R := ⟨0, 0⟩

/-- simplifyPolygon from wallUnion.ts: keeps the first point, drops every
interior point that is collinear with its neighbours in the input sequence,
always appends the last point.  Sequences of fewer than 3 points are
returned unchanged. -/
def simplifyPolygon (polygon : List (Pt R)) (tolerance : R) : List (Pt R) :=
  if polygon.length < 3 then polygon
  else
    (polygon.getD 0 pq0 ::
      (List.range (polygon.length - 2)).filterMap (fun k =>
        let i := k + 1
        let prev := polygon.getD (i - 1) pq0
        let curr := polygon.getD i pq0
        let next := polygon.getD (i + 1) pq0
        if checkCollinear prev curr next tolerance then none else some curr)) ++
      [polygon.getD (polygon.length - 1) pq0]

/-- Default edge for list indexing; every use below is within bounds. -/
def eq0 : Edge R := ⟨pq0, pq0, ""⟩

/-- hasOpposite check of findOuterEdges (wallUnion.ts): some other edge (a
different index) runs the opposite direction within tolerance 2. -/
def hasOpposite (edges : List (Edge R)) (i : ℕ) (e : Edge R) : Bool :=
  edges.enum.any (fun jo =>
    decide (jo.1 ≠ i) && distLt e.start jo.2.endp 2 && distLt e.endp jo.2.start 2)

/-- findOuterEdges from wallUnion.ts: keep the edges with no opposite. -/
def findOuterEdges (edges : List (Edge R)) : List (Edge R) :=
  (edges.enum.filter (fun ie => !hasOpposite edges ie.1 ie.2)).map (fun ie => ie.2)

/-- Scan of tracePerimeter (wallUnion.ts) for the remaining edge whose start
is nearest to the current end: running minimum initialised at the tolerance
(squared: 2 * 2), strict improvement, first index wins ties. -/
def scanStarts (currentEnd : Pt R) (es : List (Edge R)) : Option ℕ :=
  (es.enum.foldl
    (fun (acc : R × Option ℕ) ie =>
      if dSq currentEnd ie.2.start < acc.1 then (dSq currentEnd ie.2.start, some ie.1) else acc)
    ((2 * 2 : R), none)).2

/-- Fallback scan of tracePerimeter (wallUnion.ts lines 144-159): look for an
edge whose end is near the current end; every edge that improves the running
minimum is reversed in place in the array (even if a later edge beats it),
and the best index is returned together with the updated array. -/
def scanEnds (currentEnd : Pt R) (es : List (Edge R)) :
    List (Edge R) × Option ℕ :=
  let r := (List.range es.length).foldl
    (fun (acc : List (Edge R) × R × Option ℕ) i =>
      let e := acc.1.getD i eq0
      if dSq currentEnd e.endp < acc.2.1 then
        (acc.1.set i ⟨e.endp, e.start, e.wallId⟩, dSq currentEnd e.endp, some i)
      else acc)
    (es, (2 * 2 : R), none)
  (r.1, r.2.2)

/-- Loop body of tracePerimeter (wallUnion.ts): fuel counts the remaining
allowed iterations (maxIterations = 2 x edge count in the caller). -/
def tracePerimeterLoop (first : Pt R) : ℕ → List (Pt R) → List (Edge R) → List (Pt R)
  | 0, polygon, _ => polygon
  | fuel + 1, polygon, remaining =>
    if remaining.length = 0 then polygon
    else
      let currentEnd := polygon.getD (polygon.length - 1) pq0
      match scanStarts currentEnd remaining with
      | some i =>
        let nextEdge := remaining.getD i eq0
        if distLt nextEdge.endp first 2 then polygon
        else tracePerimeterLoop first fuel (polygon ++ [nextEdge.endp]) (remaining.eraseIdx i)
      | none =>
        match scanEnds currentEnd remaining with
        | (es2, some i) =>
          let nextEdge := es2.getD i eq0
          if distLt nextEdge.endp first 2 then polygon
          else tracePerimeterLoop first fuel (polygon ++ [nextEdge.endp]) (es2.eraseIdx i)
        | (_, none) => polygon

/-- tracePerimeter from wallUnion.ts. -/
def tracePerimeter (edges : List (Edge R)) : List (Pt R) :=
  if edges.length = 0 then []
  else
    let e0 := edges.getD 0 eq0
    tracePerimeterLoop e0.start (edges.length * 2) [e0.start, e0.endp] (edges.drop 1)

/-- Opposite-edge filter of traceOuterBoundary in the wall-merge hook
(duplicated in the source from wallUnion.ts, embedded separately). -/
def hookHasOpposite (edges : List (Edge R)) (i : ℕ) (e : Edge R) : Bool :=
  edges.enum.any (fun jo =>
    decide (jo.1 ≠ i) && distLt e.start jo.2.endp 2 && distLt e.endp jo.2.start 2)

/-- Outer-edge set of traceOuterBoundary in the wall-merge hook. -/
def hookOuterEdges (edges : List (Edge R)) : List (Edge R) :=
  (edges.enum.filter (fun ie => !hookHasOpposite edges ie.1 ie.2)).map (fun ie => ie.2)

/-- Loop body of traceOuterBoundary in the wall-merge hook: same greedy
start-matching as tracePerimeter, but with NO end-reversal fallback; when no
remaining edge starts near the current end the loop breaks. -/
def traceOuterLoop (first : Pt R) : ℕ → List (Pt R) → List (Edge R) → List (Pt R)
  | 0, polygon, _ => polygon
  | fuel + 1, polygon, remaining =>
    if remaining.length = 0 then polygon
    else
      let currentEnd := polygon.getD (polygon.length - 1) pq0
      match scanStarts currentEnd remaining with
      | none => polygon
      | some i =>
        let nextEdge := remaining.getD i eq0
        if distLt nextEdge.endp first 2 then polygon
        else traceOuterLoop first fuel (polygon ++ [nextEdge.endp]) (remaining.eraseIdx i)

/-- All quad boundary edges of a beveled-walls list (consecutive corner
pairs, wrapping), as assembled by traceOuterBoundary in the wall-merge
hook. -/
def hookAllEdges (beveledWalls : List (String × List (Pt R))) : List (Edge R) :=
  beveledWalls.flatMap (fun wc =>
    (List.range wc.2.length).map (fun i =>
      ⟨wc.2.getD i pq0, wc.2.getD ((i + 1) % wc.2.length) pq0, wc.1⟩))

/-- traceOuterBoundary from the wall-merge hook (the per-component union
tracer used by mergeWallGroup). -/
def traceOuterBoundary (beveledWalls : List (String × List (Pt R))) : List (Pt R) :=
  let outerEdges := hookOuterEdges (hookAllEdges beveledWalls)
  if outerEdges.length = 0 then []
  else
    let e0 := outerEdges.getD 0 eq0
    traceOuterLoop e0.start (outerEdges.length * 2) [e0.start, e0.endp] (outerEdges.drop 1)

/-- Fixture (not part of the embedding): five triangular corner lists whose
edge set, after the opposite-edge cancellation (which tests all edges, so
chains of points 1 apart but 2 apart end to end remove edges
asymmetrically), leaves an outer-edge set on which the trace reaches the
point (100, 100) with no remaining start within tolerance but with the
remaining edge ending at (100, 101) within tolerance. -/
def exBW : List (String × List (Pt ℤ)) :=
  [("x", [⟨0, 0⟩, ⟨100, 0⟩, ⟨100, 100⟩]),
   ("y", [⟨100, 100⟩, ⟨100, 0⟩, ⟨1, 0⟩]),
   ("z", [⟨100, 100⟩, ⟨2, 0⟩, ⟨200, 200⟩]),
   ("w", [⟨-100, 100⟩, ⟨-100, 50⟩, ⟨100, 101⟩]),
   ("v", [⟨-100, 100⟩, ⟨100, 102⟩, ⟨-200, 200⟩])]

end WU

noncomputable section

open scoped Classical

namespace KS

/-- Point2D over the reals. -/
structure Point where
  x : ℝ
  y : ℝ

/-- Wall record from the floor-plan types.  Fields irrelevant to the 2D
core (height, cutouts and so on) are omitted; the source field named end is
rendered endp. -/
structure Wall where
  id : String
  start : Point
  endp : Point
  thickness : ℝ

/-- distanceBetweenPoints from geometryUtils.ts: Euclidean distance. -/
def distanceBetweenPoints (p1 p2 : Point) : ℝ :=
  Real.sqrt ((p2.x - p1.x) * (p2.x - p1.x) + (p2.y - p1.y) * (p2.y - p1.y))

/-- Squared distance, the radicand of distanceBetweenPoints. -/
def dsq (p1 p2 : Point) : ℝ :=
  (p2.x - p1.x) * (p2.x - p1.x) + (p2.y - p1.y) * (p2.y - p1.y)

theorem distanceBetweenPoints_eq_sqrt (p1 p2 : Point) :
    distanceBetweenPoints p1 p2 = Real.sqrt (dsq p1 p2) := rfl

theorem dsq_nonneg (p1 p2 : Point) : 0 ≤ dsq p1 p2 := by
  unfold dsq
  have h1 := mul_self_nonneg (p2.x - p1.x)
  have h2 := mul_self_nonneg (p2.y - p1.y)
  linarith

theorem distanceBetweenPoints_nonneg (p1 p2 : Point) :
    0 ≤ distanceBetweenPoints p1 p2 := Real.sqrt_nonneg _

/-- Justification of the squared-comparison encoding used for the ordered
ring embedding above: comparing a Euclidean distance with a positive bound
is the same as comparing the squared distance with the squared bound. -/
theorem dist_lt_iff_sq (p1 p2 : Point) {c : ℝ} (hc : 0 < c) :
    distanceBetweenPoints p1 p2 < c ↔ dsq p1 p2 < c * c := by
  rw [distanceBetweenPoints_eq_sqrt, Real.sqrt_lt' hc, pow_two]

theorem dist_le_iff_sq (p1 p2 : Point) {c : ℝ} (hc : 0 ≤ c) :
    distanceBetweenPoints p1 p2 ≤ c ↔ dsq p1 p2 ≤ c * c := by
  rw [distanceBetweenPoints_eq_sqrt, Real.sqrt_le_left hc, pow_two]

theorem dist_lt_dist_iff_sq (p1 p2 q1 q2 : Point) :
    distanceBetweenPoints p1 p2 < distanceBetweenPoints q1 q2 ↔ dsq p1 p2 < dsq q1 q2 := by
  rw [distanceBetweenPoints_eq_sqrt, distanceBetweenPoints_eq_sqrt,
    Real.sqrt_lt_sqrt_iff (dsq_nonneg p1 p2)]

/-- Boolean form of a strict distance comparison (JS dist < c). -/
def distLtB (p1 p2 : Point) (c : ℝ) : Bool :=
  decide (distanceBetweenPoints p1 p2 < c)

/-- Boolean form of a non-strict distance comparison (JS dist <= c). -/
def distLeB (p1 p2 : Point) (c : ℝ) : Bool :=
  decide (distanceBetweenPoints p1 p2 ≤ c)

/-- Math.atan2 on the reals (standard piecewise arctangent definition,
matching the JS builtin on every input the embedding meets). -/
def atan2 (y x : ℝ) : ℝ :=
  if 0 < x then Real.arctan (y / x)
  else if x < 0 then
    (if 0 ≤ y then Real.arctan (y / x) + Real.pi else Real.arctan (y / x) - Real.pi)
  else if 0 < y then Real.pi / 2
  else if y < 0 then -(Real.pi / 2)
  else 0

/-- Greedy single-seed clustering shared by both junction detectors: the
head of the list seeds a cluster and absorbs every later element near the
seed; the remaining (far) elements are clustered recursively.  This is the
functional rendering of the indexed loop with its processed set: elements
absorbed into a cluster are exactly the later indices marked processed, and
the surviving elements keep their relative order. -/
def gather {α : Type} (nearb : α → α → Bool) : List α → List (List α)
  | [] => []
  | p :: rest =>
    (p :: rest.filter (fun q => nearb p q)) ::
      gather nearb (rest.filter (fun q => !nearb p q))
termination_by l => l.length
decreasing_by
  simp only [List.length_cons]
  exact Nat.lt_succ_of_le (List.length_filter_le _ _)

/-- Deduplication keeping first occurrences, the behaviour of the JS
spread of a Set built from an array. -/
def dedupFirst {α : Type} [DecidableEq α] : List α → List α
  | [] => []
  | a :: l => a :: dedupFirst (l.filter (fun b => b ≠ a))
termination_by l => l.length
decreasing_by
  simp only [List.length_cons]
  exact Nat.lt_succ_of_le (List.length_filter_le _ _)

/-- Tagged wall endpoint as enumerated by detectJunctions (wallJunctions
version, identified by wall id). -/
structure EndPt where
  point : Point
  wallId : String
  isStart : Bool

/-- WallJunction from the wallJunctions utility. -/
structure WallJunction where
  point : Point
  wallIds : List String
  angles : List ℝ

/-- Default wall standing in for the non-null assertion of a JS find; every
lookup below succeeds. -/
def wall0 : Wall := ⟨"", ⟨0, 0⟩, ⟨0, 0⟩, 0⟩

/-- Default point for in-bounds array indexing. -/
def p0 : Point := ⟨0, 0⟩

/-- Endpoint list assembled by detectJunctions: both endpoints of every
wall, in wall order, starts before ends. -/
def wallPoints (walls : List Wall) : List EndPt :=
  walls.flatMap (fun w => [⟨w.start, w.id, true⟩, ⟨w.endp, w.id, false⟩])

/-- Junction built from a cluster of at least two endpoints: mean point,
first-occurrence-deduplicated wall ids, and per-wall angles away from the
junction. -/
def junctionOfCluster (walls : List Wall) (cluster : List EndPt) : WallJunction :=
  let avgPoint : Point :=
    ⟨(cluster.map (fun p => p.point.x)).sum / (cluster.length : ℝ),
     (cluster.map (fun p => p.point.y)).sum / (cluster.length : ℝ)⟩
  let wallIds := dedupFirst (cluster.map (fun p => p.wallId))
  let angles := wallIds.map (fun wid =>
    let w := (walls.find? (fun w => w.id == wid)).getD wall0
    let isStart := ((cluster.find? (fun p => p.wallId == wid)).map (fun p => p.isStart)).getD false
    let dx := if isStart then w.endp.x - w.start.x else w.start.x - w.endp.x
    let dy := if isStart then w.endp.y - w.start.y else w.start.y - w.endp.y
    atan2 dy dx)
  ⟨avgPoint, wallIds, angles⟩

/-- detectJunctions from the wallJunctions utility (caller default
tolerance 1): greedy single-seed clustering of wall endpoints; clusters of
at least 2 members become junctions. -/
def detectJunctions (walls : List Wall) (tolerance : ℝ) : List WallJunction :=
  (gather (fun p q => distLeB p.point q.point tolerance) (wallPoints walls)).filterMap
    (fun c => if 2 ≤ c.length then some (junctionOfCluster walls c) else none)

/-- WallCorners from the wallJunctions utility: the four thickness corners
in the fixed ordering (corner1/corner2 at the start end, corner3/corner4 at
the end end) plus the centerline. -/
structure WallCorners where
  wallId : String
  corner1 : Point
  corner2 : Point
  corner3 : Point
  corner4 : Point
  centerline : Point × Point

/-- calculateWallCorners from the wallJunctions utility: unmitered base
rectangle of a wall, offsetting both endpoints by half the thickness along
the unit perpendicular of the wall direction. -/
def calculateWallCorners (wall : Wall) : WallCorners :=
  let dx := wall.endp.x - wall.start.x
  let dy := wall.endp.y - wall.start.y
  let length := Real.sqrt (dx * dx + dy * dy)
  let perpX := -dy / length
  let perpY := dx / length
  let halfThickness := wall.thickness / 2
  ⟨wall.id,
    ⟨wall.start.x + perpX * halfThickness, wall.start.y + perpY * halfThickness⟩,
    ⟨wall.start.x - perpX * halfThickness, wall.start.y - perpY * halfThickness⟩,
    ⟨wall.endp.x - perpX * halfThickness, wall.endp.y - perpY * halfThickness⟩,
    ⟨wall.endp.x + perpX * halfThickness, wall.endp.y + perpY * halfThickness⟩,
    (wall.start, wall.endp)⟩

/-- calculateMiterPoint, the intersection helper inside
getAdjustedWallCorners: intersects the two infinite lines through the given
point pairs, refusing when the direction determinant is below 0.0001 in
magnitude. -/
def calculateMiterPoint (edge1Start edge1End edge2Start edge2End : Point) : Option Point :=
  let dx1 := edge1End.x - edge1Start.x
  let dy1 := edge1End.y - edge1Start.y
  let dx2 := edge2End.x - edge2Start.x
  let dy2 := edge2End.y - edge2Start.y
  let denominator := dx1 * dy2 - dy1 * dx2
  if |denominator| < 0.0001 then none
  else
    let t := ((edge2Start.x - edge1Start.x) * dy2 - (edge2Start.y - edge1Start.y) * dx2) / denominator
    some ⟨edge1Start.x + t * dx1, edge1Start.y + t * dy1⟩

/-- limitMiterPoint, the spike clamp inside getAdjustedWallCorners: a
missing miter point keeps the original corner; a miter point farther than
maxMiterExtension from the original corner is pulled back to exactly that
distance along the direction from the original corner to the miter point. -/
def limitMiterPoint (maxMiterExtension : ℝ) (miterPoint : Option Point) (originalCorner : Point) : Point :=
  match miterPoint with
  | none => originalCorner
  | some m =>
    let distance := Real.sqrt ((m.x - originalCorner.x) ^ 2 + (m.y - originalCorner.y) ^ 2)
    if maxMiterExtension < distance then
      ⟨originalCorner.x + (m.x - originalCorner.x) / distance * maxMiterExtension,
       originalCorner.y + (m.y - originalCorner.y) / distance * maxMiterExtension⟩
    else m

/-- adjustWallEndForMiter from getAdjustedWallCorners: replaces the two
corners of one wall end by the clamped miter intersections of the edge
lines of this wall with the correspondingly oriented edge lines of the
first other wall at the junction.  The maximum miter extension is 3 times
the wall thickness. -/
def adjustWallEndForMiter (wall : Wall) (allWalls : List Wall) (base : WallCorners)
    (isStart : Bool) (junction : WallJunction) (corners : List Point) : List Point :=
  let otherWalls := (junction.wallIds.filter (fun i => i != wall.id)).filterMap
    (fun i => allWalls.find? (fun w => w.id == i))
  match otherWalls with
  | [] => corners
  | otherWall :: _ =>
    let dx := wall.endp.x - wall.start.x
    let dy := wall.endp.y - wall.start.y
    let length := Real.sqrt (dx * dx + dy * dy)
    let otherDx := otherWall.endp.x - otherWall.start.x
    let otherDy := otherWall.endp.y - otherWall.start.y
    let otherLength := Real.sqrt (otherDx * otherDx + otherDy * otherDy)
    let otherPerpX := -otherDy / otherLength
    let otherPerpY := otherDx / otherLength
    let otherHalfThickness := otherWall.thickness / 2
    let otherWallAtStart := distLtB otherWall.start junction.point 2
    let otherEdge1Start : Point :=
      if otherWallAtStart then
        ⟨otherWall.start.x + otherPerpX * otherHalfThickness,
         otherWall.start.y + otherPerpY * otherHalfThickness⟩
      else
        ⟨otherWall.endp.x + otherPerpX * otherHalfThickness,
         otherWall.endp.y + otherPerpY * otherHalfThickness⟩
    let otherEdge1End : Point :=
      if otherWallAtStart then
        ⟨otherWall.endp.x + otherPerpX * otherHalfThickness,
         otherWall.endp.y + otherPerpY * otherHalfThickness⟩
      else
        ⟨otherWall.start.x + otherPerpX * otherHalfThickness,
         otherWall.start.y + otherPerpY * otherHalfThickness⟩
    let otherEdge2Start : Point :=
      if otherWallAtStart then
        ⟨otherWall.start.x - otherPerpX * otherHalfThickness,
         otherWall.start.y - otherPerpY * otherHalfThickness⟩
      else
        ⟨otherWall.endp.x - otherPerpX * otherHalfThickness,
         otherWall.endp.y - otherPerpY * otherHalfThickness⟩
    let otherEdge2End : Point :=
      if otherWallAtStart then
        ⟨otherWall.endp.x - otherPerpX * otherHalfThickness,
         otherWall.endp.y - otherPerpY * otherHalfThickness⟩
      else
        ⟨otherWall.start.x - otherPerpX * otherHalfThickness,
         otherWall.start.y - otherPerpY * otherHalfThickness⟩
    let perpX := -dy / length
    let perpY := dx / length
    let halfThickness := wall.thickness / 2
    let currentEdge1Start : Point :=
      if isStart then
        ⟨wall.start.x + perpX * halfThickness, wall.start.y + perpY * halfThickness⟩
      else
        ⟨wall.endp.x + perpX * halfThickness, wall.endp.y + perpY * halfThickness⟩
    let currentEdge1End : Point :=
      if isStart then
        ⟨wall.endp.x + perpX * halfThickness, wall.endp.y + perpY * halfThickness⟩
      else
        ⟨wall.start.x + perpX * halfThickness, wall.start.y + perpY * halfThickness⟩
    let currentEdge2Start : Point :=
      if isStart then
        ⟨wall.start.x - perpX * halfThickness, wall.start.y - perpY * halfThickness⟩
      else
        ⟨wall.endp.x - perpX * halfThickness, wall.endp.y - perpY * halfThickness⟩
    let currentEdge2End : Point :=
      if isStart then
        ⟨wall.endp.x - perpX * halfThickness, wall.endp.y - perpY * halfThickness⟩
      else
        ⟨wall.start.x - perpX * halfThickness, wall.start.y - perpY * halfThickness⟩
    let miter1 := calculateMiterPoint currentEdge1Start currentEdge1End otherEdge1Start otherEdge1End
    let miter2 := calculateMiterPoint currentEdge2Start currentEdge2End otherEdge2Start otherEdge2End
    let maxMiterExtension := wall.thickness * 3
    if isStart then
      (corners.set 0 (limitMiterPoint maxMiterExtension miter1 base.corner1)).set 1
        (limitMiterPoint maxMiterExtension miter2 base.corner2)
    else
      (corners.set 3 (limitMiterPoint maxMiterExtension miter1 base.corner4)).set 2
        (limitMiterPoint maxMiterExtension miter2 base.corner3)

/-- getAdjustedWallCorners from the wallJunctions utility: start from the
unmitered base corners; at each wall end lying within distance 2 of a
junction with at least two member walls, replace the two corners of that
end by clamped miter points. -/
def getAdjustedWallCorners (wall : Wall) (allWalls : List Wall)
    (junctions : List WallJunction) : List Point :=
  let baseCorners := calculateWallCorners wall
  let corners0 := [baseCorners.corner1, baseCorners.corner2, baseCorners.corner3, baseCorners.corner4]
  let startJunction := junctions.find? (fun j => distLtB j.point wall.start 2)
  let endJunction := junctions.find? (fun j => distLtB j.point wall.endp 2)
  let corners1 :=
    match startJunction with
    | some j => if 2 ≤ j.wallIds.length then adjustWallEndForMiter wall allWalls baseCorners true j corners0 else corners0
    | none => corners0
  match endJunction with
  | some j => if 2 ≤ j.wallIds.length then adjustWallEndForMiter wall allWalls baseCorners false j corners1 else corners1
  | none => corners1

/-- calculateWallsCenter from the floor-polygon module: mean of all wall
endpoints (every wall contributes its start and its end, so the count is
twice the number of walls). -/
def calculateWallsCenter (walls : List Wall) : Point :=
  let sumX := (walls.map (fun w => w.start.x + w.endp.x)).sum
  let sumY := (walls.map (fun w => w.start.y + w.endp.y)).sum
  ⟨sumX / (2 * walls.length : ℝ), sumY / (2 * walls.length : ℝ)⟩

/-- getInnerEdgeIndices from the floor-polygon module: of the two
thickness-parallel edges (corners 0-3 and corners 1-2), pick the one whose
midpoint is closer to the room center; corner lists that are not 4 long
fall back to (1, 2). -/
def getInnerEdgeIndices (wallCorners : List Point) (roomCenter : Point) : ℕ × ℕ :=
  if wallCorners.length ≠ 4 then (1, 2)
  else
    let midpointA : Point :=
      ⟨((wallCorners.getD 0 p0).x + (wallCorners.getD 3 p0).x) / 2,
       ((wallCorners.getD 0 p0).y + (wallCorners.getD 3 p0).y) / 2⟩
    let midpointB : Point :=
      ⟨((wallCorners.getD 1 p0).x + (wallCorners.getD 2 p0).x) / 2,
       ((wallCorners.getD 1 p0).y + (wallCorners.getD 2 p0).y) / 2⟩
    let distA := Real.sqrt ((midpointA.x - roomCenter.x) ^ 2 + (midpointA.y - roomCenter.y) ^ 2)
    let distB := Real.sqrt ((midpointB.x - roomCenter.x) ^ 2 + (midpointB.y - roomCenter.y) ^ 2)
    if distB < distA then (1, 2) else (0, 3)

/-- lineIntersection from the floor-polygon module: intersection of the two
infinite lines through the given point pairs, solved parametrically; a
direction determinant below 0.0001 in magnitude (parallel or coincident
lines) yields none.  The returned point may lie outside either segment. -/
def lineIntersection (line1Start line1End line2Start line2End : Point) : Option Point :=
  let dx1 := line1End.x - line1Start.x
  let dy1 := line1End.y - line1Start.y
  let dx2 := line2End.x - line2Start.x
  let dy2 := line2End.y - line2Start.y
  let denominator := dx1 * dy2 - dy1 * dx2
  if |denominator| < 0.0001 then none
  else
    let t := ((line2Start.x - line1Start.x) * dy2 - (line2Start.y - line1Start.y) * dx2) / denominator
    some ⟨line1Start.x + t * dx1, line1Start.y + t * dy1⟩

/-- insetPolygon from the floor-polygon module: move every vertex toward
the center by the inset distance (vertices at the center stay). -/
def insetPolygon (polygon : List Point) (center : Point) (insetDistance : ℝ) : List Point :=
  polygon.map (fun point =>
    let dx := center.x - point.x
    let dy := center.y - point.y
    let distance := Real.sqrt (dx * dx + dy * dy)
    if distance = 0 then point
    else ⟨point.x + dx / distance * insetDistance, point.y + dy / distance * insetDistance⟩)

/-- Inner edge record of getFloorPolygon: the inner thickness edge of one
wall with the atan2 angle of its midpoint around the room center. -/
structure WallInnerEdge where
  wall : Wall
  start : Point
  endp : Point
  angle : ℝ

/-- Default inner edge for in-bounds indexing. -/
def ie0 : WallInnerEdge := ⟨wall0, p0, p0, 0⟩

/-- Inner-edge collection stage of getFloorPolygon: for every wall take its
adjusted corners, keep the inner thickness edge and its angular position
around the room center.  Corner lists of length other than 4 are skipped
(the adjusted corners always have length 4). -/
def innerEdgesOf (walls : List Wall) : List WallInnerEdge :=
  let roomCenter := calculateWallsCenter walls
  let junctions := detectJunctions walls 1
  walls.filterMap (fun wall =>
    let corners := getAdjustedWallCorners wall walls junctions
    if corners.length ≠ 4 then none
    else
      let idx := getInnerEdgeIndices corners roomCenter
      let edgeStart := corners.getD idx.1 p0
      let edgeEnd := corners.getD idx.2 p0
      let midX := (edgeStart.x + edgeEnd.x) / 2
      let midY := (edgeStart.y + edgeEnd.y) / 2
      some ⟨wall, edgeStart, edgeEnd, atan2 (midY - roomCenter.y) (midX - roomCenter.x)⟩)

/-- Insertion of the stable ascending sort by angle (the JS sort with the
comparator on angles). -/
def insertByAngle (a : WallInnerEdge) : List WallInnerEdge → List WallInnerEdge
  | [] => [a]
  | b :: l => if a.angle ≤ b.angle then a :: b :: l else b :: insertByAngle a l

/-- Stable ascending sort of the inner edges by angle. -/
def sortInnerEdges (es : List WallInnerEdge) : List WallInnerEdge :=
  es.foldr insertByAngle []

/-- Intersection stage of getFloorPolygon: each angularly consecutive pair
of inner edges (wrapping) contributes one vertex, the intersection of
their infinite lines, or for parallel lines whichever endpoint of the
current edge is closer to the start of the next edge. -/
def floorCornersOf (sorted : List WallInnerEdge) : List Point :=
  (List.range sorted.length).map (fun i =>
    let currentEdge := sorted.getD i ie0
    let nextEdge := sorted.getD ((i + 1) % sorted.length) ie0
    match lineIntersection currentEdge.start currentEdge.endp nextEdge.start nextEdge.endp with
    | some intersection => intersection
    | none =>
      let dist1 := Real.sqrt ((currentEdge.start.x - nextEdge.start.x) ^ 2 +
        (currentEdge.start.y - nextEdge.start.y) ^ 2)
      let dist2 := Real.sqrt ((currentEdge.endp.x - nextEdge.start.x) ^ 2 +
        (currentEdge.endp.y - nextEdge.start.y) ^ 2)
      if dist1 < dist2 then currentEdge.start else currentEdge.endp)

/-- getFloorPolygon from the floor-polygon module (caller default inset
distance 2): null for fewer than 2 walls, fewer than 3 inner edges, or
fewer than 3 corner points; otherwise the ring of consecutive inner-edge
intersections, inset toward the center when the inset distance is not 0. -/
def getFloorPolygon (walls : List Wall) (insetDistance : ℝ) : Option (List Point) :=
  if walls.length < 2 then none
  else
    let roomCenter := calculateWallsCenter walls
    let innerEdges := innerEdgesOf walls
    if innerEdges.length < 3 then none
    else
      let sorted := sortInnerEdges innerEdges
      let floorCorners := floorCornersOf sorted
      if floorCorners.length < 3 then none
      else if insetDistance ≠ 0 then some (insetPolygon floorCorners roomCenter insetDistance)
      else some floorCorners

/-- Junction record of the wallMiter module: member walls are kept as
(wall, isStart) pairs. -/
structure MJunction where
  point : Point
  walls : List (Wall × Bool)

/-- Tagged wall endpoint as enumerated by the wallMiter junction
detector. -/
structure EndPtW where
  point : Point
  wall : Wall
  isStart : Bool

/-- Endpoint list of the wallMiter junction detector. -/
def wallPointsW (walls : List Wall) : List EndPtW :=
  walls.flatMap (fun w => [⟨w.start, w, true⟩, ⟨w.endp, w, false⟩])

/-- detectJunctions from the wallMiter module (caller default tolerance 2):
same greedy single-seed clustering, keeping (wall, isStart) members. -/
def detectJunctionsM (walls : List Wall) (tolerance : ℝ) : List MJunction :=
  (gather (fun p q => distLeB p.point q.point tolerance) (wallPointsW walls)).filterMap
    (fun c =>
      if 2 ≤ c.length then
        some ⟨⟨(c.map (fun p => p.point.x)).sum / (c.length : ℝ),
               (c.map (fun p => p.point.y)).sum / (c.length : ℝ)⟩,
              c.map (fun p => (p.wall, p.isStart))⟩
      else none)

/-- getWallDirection from the wallMiter module: unit direction away from
the junction end (reversed when the wall ends there). -/
def getWallDirection (wall : Wall) (isStart : Bool) : Point :=
  let dx := wall.endp.x - wall.start.x
  let dy := wall.endp.y - wall.start.y
  let length := Real.sqrt (dx * dx + dy * dy)
  if isStart then ⟨dx / length, dy / length⟩ else ⟨-dx / length, -dy / length⟩

/-- Per-wall body of calculateMiteredWallCorners (wallMiter module): base
corners, then at each wall end lying within 2 of a junction with at least
2 members, if the first other wall there is roughly perpendicular
(absolute dot product of unit directions below 0.3), replace exactly one
corner (chosen by the cross product sign) by the bevel point offset from
the junction by half the thickness along this wall's own direction. -/
def miteredCornersFor (junctions : List MJunction) (wall : Wall) : List Point :=
  let dx := wall.endp.x - wall.start.x
  let dy := wall.endp.y - wall.start.y
  let length := Real.sqrt (dx * dx + dy * dy)
  let dirX := dx / length
  let dirY := dy / length
  let perpX := -dy / length
  let perpY := dx / length
  let halfThickness := wall.thickness / 2
  let corner1 : Point := ⟨wall.start.x + perpX * halfThickness, wall.start.y + perpY * halfThickness⟩
  let corner2 : Point := ⟨wall.start.x - perpX * halfThickness, wall.start.y - perpY * halfThickness⟩
  let corner3 : Point := ⟨wall.endp.x - perpX * halfThickness, wall.endp.y - perpY * halfThickness⟩
  let corner4 : Point := ⟨wall.endp.x + perpX * halfThickness, wall.endp.y + perpY * halfThickness⟩
  let startJunction := junctions.find? (fun j => distLtB j.point wall.start 2)
  let endJunction := junctions.find? (fun j => distLtB j.point wall.endp 2)
  let startPair : Point × Point :=
    match startJunction with
    | some j =>
      if 2 ≤ j.walls.length then
        match j.walls.find? (fun wb => wb.1.id != wall.id) with
        | some ow =>
          let otherDir := getWallDirection ow.1 ow.2
          let dotProduct := |dirX * otherDir.x + dirY * otherDir.y|
          if dotProduct < 0.3 then
            let cross := dirX * otherDir.y - dirY * otherDir.x
            let bevelPoint : Point :=
              ⟨j.point.x + dirX * halfThickness, j.point.y + dirY * halfThickness⟩
            if 0 < cross then (bevelPoint, corner2) else (corner1, bevelPoint)
          else (corner1, corner2)
        | none => (corner1, corner2)
      else (corner1, corner2)
    | none => (corner1, corner2)
  let endPair : Point × Point :=
    match endJunction with
    | some j =>
      if 2 ≤ j.walls.length then
        match j.walls.find? (fun wb => wb.1.id != wall.id) with
        | some ow =>
          let otherDir := getWallDirection ow.1 ow.2
          let dotProduct := |(-dirX) * otherDir.x + (-dirY) * otherDir.y|
          if dotProduct < 0.3 then
            let cross := (-dirX) * otherDir.y - (-dirY) * otherDir.x
            let bevelPoint : Point :=
              ⟨j.point.x - dirX * halfThickness, j.point.y - dirY * halfThickness⟩
            if 0 < cross then (corner3, bevelPoint) else (bevelPoint, corner4)
          else (corner3, corner4)
        | none => (corner3, corner4)
      else (corner3, corner4)
    | none => (corner3, corner4)
  [startPair.1, startPair.2, endPair.1, endPair.2]

/-- calculateMiteredWallCorners from the wallMiter module. -/
def calculateMiteredWallCorners (walls : List Wall) : List (String × List Point) :=
  let junctions := detectJunctionsM walls 2
  walls.map (fun w => (w.id, miteredCornersFor junctions w))

/-- distanceToLineSegment from geometryUtils.ts (the pointToSegmentDistance
primitive of the specification): distance from a point to the closest point
of a segment, with the projection parameter clamped to the unit interval;
zero-length segments fall back to the point distance. -/
def distanceToLineSegment (point lineStart lineEnd : Point) : ℝ :=
  let dx := lineEnd.x - lineStart.x
  let dy := lineEnd.y - lineStart.y
  let lengthSquared := dx * dx + dy * dy
  if lengthSquared = 0 then
    Real.sqrt ((point.x - lineStart.x) * (point.x - lineStart.x) +
      (point.y - lineStart.y) * (point.y - lineStart.y))
  else
    let t := max 0 (min 1 (((point.x - lineStart.x) * dx + (point.y - lineStart.y) * dy) / lengthSquared))
    let closestX := lineStart.x + t * dx
    let closestY := lineStart.y + t * dy
    Real.sqrt ((point.x - closestX) * (point.x - closestX) +
      (point.y - closestY) * (point.y - closestY))

/-- Unmitered base corners of a wall as a 4-element list, in the fixed
ordering of calculateWallCorners. -/
def baseCornerList (wall : Wall) : List Point :=
  let c := calculateWallCorners wall
  [c.corner1, c.corner2, c.corner3, c.corner4]

/-
  Concrete walls used to instantiate the theorems below (test fixtures, not
  part of the embedding).
-/

/-- Fixture: horizontal wall from the origin, length 100, thickness 10. -/
def wBottom : Wall := ⟨"w1", ⟨0, 0⟩, ⟨100, 0⟩, 10⟩

/-- Fixture: vertical wall meeting wBottom at (100, 0) at a right angle. -/
def wRight : Wall := ⟨"w2", ⟨100, 0⟩, ⟨100, 100⟩, 10⟩

/-- Fixture for the floor polygon: upper wall whose inner edge is parallel
to the inner edge of wBottom but shifted. -/
def wTop : Wall := ⟨"f2", ⟨30, 50⟩, ⟨100, 50⟩, 10⟩

/-- Fixture for the floor polygon: left vertical wall. -/
def wLeft : Wall := ⟨"f3", ⟨0, 60⟩, ⟨0, -10⟩, 10⟩

end KS

end

open KS

/-
  Helper lemmas about the miter clamp and the shape of the adjusted corner
  lists.  These are shared by the theorems for several claims.
-/

theorem dist_eq_sqrt_pow (c m : Point) :
    distanceBetweenPoints c m = Real.sqrt ((m.x - c.x) ^ 2 + (m.y - c.y) ^ 2) := by
  unfold distanceBetweenPoints
  congr 1
  ring

theorem dist_self_eq_zero (c : Point) : distanceBetweenPoints c c = 0 := by
  unfold distanceBetweenPoints
  simp

theorem limitMiterPoint_dist_le (M : ℝ) (hM : 0 ≤ M) (mp : Option Point) (c : Point) :
    distanceBetweenPoints c (limitMiterPoint M mp c) ≤ M := by
  cases mp with
  | none =>
    rw [limitMiterPoint, dist_self_eq_zero]
    exact hM
  | some m =>
    rw [limitMiterPoint]
    split
    next h =>
      have hd := dist_eq_sqrt_pow c m
      have hS : (0 : ℝ) ≤ (m.x - c.x) ^ 2 + (m.y - c.y) ^ 2 := by positivity
      have hd0 : 0 < Real.sqrt ((m.x - c.x) ^ 2 + (m.y - c.y) ^ 2) := lt_of_le_of_lt hM h
      rw [dist_eq_sqrt_pow]
      have harg :
          (⟨c.x + (m.x - c.x) / Real.sqrt ((m.x - c.x) ^ 2 + (m.y - c.y) ^ 2) * M,
            c.y + (m.y - c.y) / Real.sqrt ((m.x - c.x) ^ 2 + (m.y - c.y) ^ 2) * M⟩ : Point).x - c.x
            = (m.x - c.x) * (M / Real.sqrt ((m.x - c.x) ^ 2 + (m.y - c.y) ^ 2)) := by
        simp only
        ring
      have key :
          Real.sqrt (((m.x - c.x) * (M / Real.sqrt ((m.x - c.x) ^ 2 + (m.y - c.y) ^ 2))) ^ 2 +
            ((m.y - c.y) * (M / Real.sqrt ((m.x - c.x) ^ 2 + (m.y - c.y) ^ 2))) ^ 2) = M := by
        have hrw : ((m.x - c.x) * (M / Real.sqrt ((m.x - c.x) ^ 2 + (m.y - c.y) ^ 2))) ^ 2 +
            ((m.y - c.y) * (M / Real.sqrt ((m.x - c.x) ^ 2 + (m.y - c.y) ^ 2))) ^ 2 =
            (M / Real.sqrt ((m.x - c.x) ^ 2 + (m.y - c.y) ^ 2)) ^ 2 *
              ((m.x - c.x) ^ 2 + (m.y - c.y) ^ 2) := by ring
        rw [hrw, Real.sqrt_mul (sq_nonneg _), Real.sqrt_sq_eq_abs,
          abs_of_nonneg (div_nonneg hM hd0.le)]
        exact div_mul_cancel₀ M (ne_of_gt hd0)
      calc Real.sqrt
            ((c.x + (m.x - c.x) / Real.sqrt ((m.x - c.x) ^ 2 + (m.y - c.y) ^ 2) * M - c.x) ^ 2 +
             (c.y + (m.y - c.y) / Real.sqrt ((m.x - c.x) ^ 2 + (m.y - c.y) ^ 2) * M - c.y) ^ 2)
          = Real.sqrt (((m.x - c.x) * (M / Real.sqrt ((m.x - c.x) ^ 2 + (m.y - c.y) ^ 2))) ^ 2 +
             ((m.y - c.y) * (M / Real.sqrt ((m.x - c.x) ^ 2 + (m.y - c.y) ^ 2))) ^ 2) := by
            congr 1
            ring
        _ = M := key
        _ ≤ M := le_refl M
    next h =>
      rw [← dist_eq_sqrt_pow] at h
      push_neg at h
      exact h

theorem clampPoint_dist_eq (M : ℝ) (hM : 0 ≤ M) (c m : Point)
    (hd0 : 0 < distanceBetweenPoints c m) :
    distanceBetweenPoints c
      ⟨c.x + (m.x - c.x) / distanceBetweenPoints c m * M,
       c.y + (m.y - c.y) / distanceBetweenPoints c m * M⟩ = M := by
  rw [dist_eq_sqrt_pow] at hd0 ⊢
  rw [dist_eq_sqrt_pow c m]
  have hrw :
      (({ x := c.x + (m.x - c.x) / Real.sqrt ((m.x - c.x) ^ 2 + (m.y - c.y) ^ 2) * M,
          y := c.y + (m.y - c.y) / Real.sqrt ((m.x - c.x) ^ 2 + (m.y - c.y) ^ 2) * M } : Point).x - c.x) ^ 2 +
      (({ x := c.x + (m.x - c.x) / Real.sqrt ((m.x - c.x) ^ 2 + (m.y - c.y) ^ 2) * M,
          y := c.y + (m.y - c.y) / Real.sqrt ((m.x - c.x) ^ 2 + (m.y - c.y) ^ 2) * M } : Point).y - c.y) ^ 2 =
      (M / Real.sqrt ((m.x - c.x) ^ 2 + (m.y - c.y) ^ 2)) ^ 2 *
        ((m.x - c.x) ^ 2 + (m.y - c.y) ^ 2) := by
    simp only
    ring
  rw [hrw, Real.sqrt_mul (sq_nonneg _), Real.sqrt_sq_eq_abs,
    abs_of_nonneg (div_nonneg hM hd0.le)]
  exact div_mul_cancel₀ M (ne_of_gt hd0)

theorem limitMiterPoint_clamp (M : ℝ) (hM : 0 ≤ M) (m c : Point)
    (h : M < distanceBetweenPoints c m) :
    limitMiterPoint M (some m) c =
      ⟨c.x + (m.x - c.x) / distanceBetweenPoints c m * M,
       c.y + (m.y - c.y) / distanceBetweenPoints c m * M⟩ ∧
    distanceBetweenPoints c (limitMiterPoint M (some m) c) = M := by
  have hd := dist_eq_sqrt_pow c m
  have heq : limitMiterPoint M (some m) c =
      (⟨c.x + (m.x - c.x) / distanceBetweenPoints c m * M,
        c.y + (m.y - c.y) / distanceBetweenPoints c m * M⟩ : Point) := by
    rw [limitMiterPoint]
    rw [hd] at h
    rw [if_pos h, hd]
  refine ⟨heq, ?_⟩
  rw [heq]
  exact clampPoint_dist_eq M hM c m (lt_of_le_of_lt hM h)



theorem adjustWallEndForMiter_start_shape (wall : Wall) (allWalls : List Wall)
    (base : WallCorners) (j : WallJunction) (c1 c2 c3 c4 : Point) :
    ∃ p q, adjustWallEndForMiter wall allWalls base true j [c1, c2, c3, c4] = [p, q, c3, c4] ∧
      (p = c1 ∨ ∃ m : Option Point, p = limitMiterPoint (wall.thickness * 3) m base.corner1) ∧
      (q = c2 ∨ ∃ m : Option Point, q = limitMiterPoint (wall.thickness * 3) m base.corner2) := by
  cases hl : (j.wallIds.filter (fun i => i != wall.id)).filterMap
      (fun i => allWalls.find? (fun w => w.id == i)) with
  | nil =>
    refine ⟨c1, c2, ?_, Or.inl rfl, Or.inl rfl⟩
    simp only [adjustWallEndForMiter, hl]
  | cons ow rest =>
    simp only [adjustWallEndForMiter, hl, List.set]
    exact ⟨_, _, rfl, Or.inr ⟨_, rfl⟩, Or.inr ⟨_, rfl⟩⟩

theorem adjustWallEndForMiter_end_shape (wall : Wall) (allWalls : List Wall)
    (base : WallCorners) (j : WallJunction) (c1 c2 c3 c4 : Point) :
    ∃ p q, adjustWallEndForMiter wall allWalls base false j [c1, c2, c3, c4] = [c1, c2, p, q] ∧
      (p = c3 ∨ ∃ m : Option Point, p = limitMiterPoint (wall.thickness * 3) m base.corner3) ∧
      (q = c4 ∨ ∃ m : Option Point, q = limitMiterPoint (wall.thickness * 3) m base.corner4) := by
  cases hl : (j.wallIds.filter (fun i => i != wall.id)).filterMap
      (fun i => allWalls.find? (fun w => w.id == i)) with
  | nil =>
    refine ⟨c3, c4, ?_, Or.inl rfl, Or.inl rfl⟩
    simp only [adjustWallEndForMiter, hl]
  | cons ow rest =>
    simp only [adjustWallEndForMiter, hl, List.set]
    exact ⟨_, _, rfl, Or.inr ⟨_, rfl⟩, Or.inr ⟨_, rfl⟩⟩

theorem getAdjustedWallCorners_shape (wall : Wall) (allWalls : List Wall)
    (junctions : List WallJunction) :
    ∃ x0 x1 x2 x3,
      getAdjustedWallCorners wall allWalls junctions = [x0, x1, x2, x3] ∧
      (x0 = (calculateWallCorners wall).corner1 ∨
        ∃ m : Option Point, x0 = limitMiterPoint (wall.thickness * 3) m (calculateWallCorners wall).corner1) ∧
      (x1 = (calculateWallCorners wall).corner2 ∨
        ∃ m : Option Point, x1 = limitMiterPoint (wall.thickness * 3) m (calculateWallCorners wall).corner2) ∧
      (x2 = (calculateWallCorners wall).corner3 ∨
        ∃ m : Option Point, x2 = limitMiterPoint (wall.thickness * 3) m (calculateWallCorners wall).corner3) ∧
      (x3 = (calculateWallCorners wall).corner4 ∨
        ∃ m : Option Point, x3 = limitMiterPoint (wall.thickness * 3) m (calculateWallCorners wall).corner4) := by
  simp only [getAdjustedWallCorners]
  cases hs : junctions.find? (fun j => distLtB j.point wall.start 2) with
  | none =>
    cases he : junctions.find? (fun j => distLtB j.point wall.endp 2) with
    | none =>
      dsimp only
      exact ⟨_, _, _, _, rfl, Or.inl rfl, Or.inl rfl, Or.inl rfl, Or.inl rfl⟩
    | some je =>
      dsimp only
      by_cases hlen : 2 ≤ je.wallIds.length
      · rw [if_pos hlen]
        obtain ⟨p, q, heq, hp, hq⟩ := adjustWallEndForMiter_end_shape wall allWalls
          (calculateWallCorners wall) je (calculateWallCorners wall).corner1
          (calculateWallCorners wall).corner2 (calculateWallCorners wall).corner3
          (calculateWallCorners wall).corner4
        rw [heq]
        exact ⟨_, _, _, _, rfl, Or.inl rfl, Or.inl rfl, hp, hq⟩
      · rw [if_neg hlen]
        exact ⟨_, _, _, _, rfl, Or.inl rfl, Or.inl rfl, Or.inl rfl, Or.inl rfl⟩
  | some js =>
    dsimp only
    by_cases hlens : 2 ≤ js.wallIds.length
    · rw [if_pos hlens]
      obtain ⟨p, q, heq, hp, hq⟩ := adjustWallEndForMiter_start_shape wall allWalls
        (calculateWallCorners wall) js (calculateWallCorners wall).corner1
        (calculateWallCorners wall).corner2 (calculateWallCorners wall).corner3
        (calculateWallCorners wall).corner4
      rw [heq]
      cases he : junctions.find? (fun j => distLtB j.point wall.endp 2) with
      | none =>
        dsimp only
        exact ⟨_, _, _, _, rfl, hp, hq, Or.inl rfl, Or.inl rfl⟩
      | some je =>
        dsimp only
        by_cases hlene : 2 ≤ je.wallIds.length
        · rw [if_pos hlene]
          obtain ⟨p2, q2, heq2, hp2, hq2⟩ := adjustWallEndForMiter_end_shape wall allWalls
            (calculateWallCorners wall) je p q (calculateWallCorners wall).corner3
            (calculateWallCorners wall).corner4
          rw [heq2]
          exact ⟨_, _, _, _, rfl, hp, hq, hp2, hq2⟩
        · rw [if_neg hlene]
          exact ⟨_, _, _, _, rfl, hp, hq, Or.inl rfl, Or.inl rfl⟩
    · rw [if_neg hlens]
      cases he : junctions.find? (fun j => distLtB j.point wall.endp 2) with
      | none =>
        dsimp only
        exact ⟨_, _, _, _, rfl, Or.inl rfl, Or.inl rfl, Or.inl rfl, Or.inl rfl⟩
      | some je =>
        dsimp only
        by_cases hlene : 2 ≤ je.wallIds.length
        · rw [if_pos hlene]
          obtain ⟨p2, q2, heq2, hp2, hq2⟩ := adjustWallEndForMiter_end_shape wall allWalls
            (calculateWallCorners wall) je (calculateWallCorners wall).corner1
            (calculateWallCorners wall).corner2 (calculateWallCorners wall).corner3
            (calculateWallCorners wall).corner4
          rw [heq2]
          exact ⟨_, _, _, _, rfl, Or.inl rfl, Or.inl rfl, hp2, hq2⟩
        · rw [if_neg hlene]
          exact ⟨_, _, _, _, rfl, Or.inl rfl, Or.inl rfl, Or.inl rfl, Or.inl rfl⟩

theorem corner_invariant_dist (T : ℝ) (hth : 0 ≤ T) (b x : Point)
    (h : x = b ∨ ∃ m : Option Point, x = limitMiterPoint (T * 3) m b) :
    distanceBetweenPoints b x ≤ 3 * T := by
  rcases h with rfl | ⟨m, rfl⟩
  · rw [dist_self_eq_zero]
    positivity
  · have hle := limitMiterPoint_dist_le (T * 3) (by positivity) m b
    linarith

/-- Claim C1: every corner returned by getAdjustedWallCorners lies within
distance 3 times the wall thickness of the corresponding unmitered base
corner, and when the raw miter point lies farther than that bound from the
base corner, the returned corner is the point at exactly the maximum
distance from the base corner along the direction from the base corner
toward the miter point. -/
theorem C1_spike_clamp (wall : Wall) (allWalls : List Wall) (junctions : List WallJunction)
    (hlen : 0 < distanceBetweenPoints wall.start wall.endp)
    (hth : 0 ≤ wall.thickness) :
    (∀ i : Fin 4,
      distanceBetweenPoints ((baseCornerList wall).getD i p0)
        ((getAdjustedWallCorners wall allWalls junctions).getD i p0) ≤ 3 * wall.thickness) ∧
    (∀ m c : Point, 3 * wall.thickness < distanceBetweenPoints c m →
      limitMiterPoint (wall.thickness * 3) (some m) c =
        ⟨c.x + (m.x - c.x) / distanceBetweenPoints c m * (wall.thickness * 3),
         c.y + (m.y - c.y) / distanceBetweenPoints c m * (wall.thickness * 3)⟩ ∧
      distanceBetweenPoints c (limitMiterPoint (wall.thickness * 3) (some m) c) = 3 * wall.thickness) := by
  constructor
  · intro i
    obtain ⟨x0, x1, x2, x3, heq, h0, h1, h2, h3⟩ :=
      getAdjustedWallCorners_shape wall allWalls junctions
    rw [heq]
    fin_cases i
    · exact corner_invariant_dist wall.thickness hth _ _ h0
    · exact corner_invariant_dist wall.thickness hth _ _ h1
    · exact corner_invariant_dist wall.thickness hth _ _ h2
    · exact corner_invariant_dist wall.thickness hth _ _ h3
  · intro m c h
    have h3 : wall.thickness * 3 < distanceBetweenPoints c m := by linarith
    have hc := limitMiterPoint_clamp (wall.thickness * 3) (by positivity) m c h3
    exact ⟨hc.1, by rw [hc.2]; ring⟩

/-- Witness for C1 at a concrete wall of length 100 and thickness 10. -/
theorem C1_spike_clamp_witness :
    (∀ i : Fin 4,
      distanceBetweenPoints ((baseCornerList wBottom).getD i p0)
        ((getAdjustedWallCorners wBottom [wBottom] []).getD i p0) ≤ 3 * wBottom.thickness) ∧
    (∀ m c : Point, 3 * wBottom.thickness < distanceBetweenPoints c m →
      limitMiterPoint (wBottom.thickness * 3) (some m) c =
        ⟨c.x + (m.x - c.x) / distanceBetweenPoints c m * (wBottom.thickness * 3),
         c.y + (m.y - c.y) / distanceBetweenPoints c m * (wBottom.thickness * 3)⟩ ∧
      distanceBetweenPoints c (limitMiterPoint (wBottom.thickness * 3) (some m) c) = 3 * wBottom.thickness) :=
  C1_spike_clamp wBottom [wBottom] []
    (by
      show (0 : ℝ) < distanceBetweenPoints wBottom.start wBottom.endp
      rw [distanceBetweenPoints]
      rw [Real.sqrt_pos]
      norm_num [wBottom])
    (by norm_num [wBottom])

/-- Claim C3: a wall whose endpoints lie at no junction keeps exactly its
unmitered base rectangle, with the corners given by the half-thickness
offsets along the unit perpendicular in the fixed ordering. -/
theorem C3_isolated_wall (wall : Wall) (allWalls : List Wall) (junctions : List WallJunction)
    (hlen : 0 < distanceBetweenPoints wall.start wall.endp)
    (hs : ∀ j ∈ junctions, ¬ distanceBetweenPoints j.point wall.start < 2)
    (he : ∀ j ∈ junctions, ¬ distanceBetweenPoints j.point wall.endp < 2) :
    getAdjustedWallCorners wall allWalls junctions = baseCornerList wall ∧
    baseCornerList wall =
      [⟨wall.start.x + -(wall.endp.y - wall.start.y) / distanceBetweenPoints wall.start wall.endp * (wall.thickness / 2),
        wall.start.y + (wall.endp.x - wall.start.x) / distanceBetweenPoints wall.start wall.endp * (wall.thickness / 2)⟩,
       ⟨wall.start.x - -(wall.endp.y - wall.start.y) / distanceBetweenPoints wall.start wall.endp * (wall.thickness / 2),
        wall.start.y - (wall.endp.x - wall.start.x) / distanceBetweenPoints wall.start wall.endp * (wall.thickness / 2)⟩,
       ⟨wall.endp.x - -(wall.endp.y - wall.start.y) / distanceBetweenPoints wall.start wall.endp * (wall.thickness / 2),
        wall.endp.y - (wall.endp.x - wall.start.x) / distanceBetweenPoints wall.start wall.endp * (wall.thickness / 2)⟩,
       ⟨wall.endp.x + -(wall.endp.y - wall.start.y) / distanceBetweenPoints wall.start wall.endp * (wall.thickness / 2),
        wall.endp.y + (wall.endp.x - wall.start.x) / distanceBetweenPoints wall.start wall.endp * (wall.thickness / 2)⟩] := by
  have h1 : junctions.find? (fun j => distLtB j.point wall.start 2) = none := by
    rw [List.find?_eq_none]
    intro j hj
    simp only [distLtB, decide_eq_true_eq]
    exact hs j hj
  have h2 : junctions.find? (fun j => distLtB j.point wall.endp 2) = none := by
    rw [List.find?_eq_none]
    intro j hj
    simp only [distLtB, decide_eq_true_eq]
    exact he j hj
  constructor
  · simp only [getAdjustedWallCorners, h1, h2]
    rfl
  · rfl

/-- Witness for C3 at a concrete isolated wall. -/
theorem C3_isolated_wall_witness :
    getAdjustedWallCorners wBottom [wBottom] [] = baseCornerList wBottom ∧
    baseCornerList wBottom =
      [⟨wBottom.start.x + -(wBottom.endp.y - wBottom.start.y) / distanceBetweenPoints wBottom.start wBottom.endp * (wBottom.thickness / 2),
        wBottom.start.y + (wBottom.endp.x - wBottom.start.x) / distanceBetweenPoints wBottom.start wBottom.endp * (wBottom.thickness / 2)⟩,
       ⟨wBottom.start.x - -(wBottom.endp.y - wBottom.start.y) / distanceBetweenPoints wBottom.start wBottom.endp * (wBottom.thickness / 2),
        wBottom.start.y - (wBottom.endp.x - wBottom.start.x) / distanceBetweenPoints wBottom.start wBottom.endp * (wBottom.thickness / 2)⟩,
       ⟨wBottom.endp.x - -(wBottom.endp.y - wBottom.start.y) / distanceBetweenPoints wBottom.start wBottom.endp * (wBottom.thickness / 2),
        wBottom.endp.y - (wBottom.endp.x - wBottom.start.x) / distanceBetweenPoints wBottom.start wBottom.endp * (wBottom.thickness / 2)⟩,
       ⟨wBottom.endp.x + -(wBottom.endp.y - wBottom.start.y) / distanceBetweenPoints wBottom.start wBottom.endp * (wBottom.thickness / 2),
        wBottom.endp.y + (wBottom.endp.x - wBottom.start.x) / distanceBetweenPoints wBottom.start wBottom.endp * (wBottom.thickness / 2)⟩] :=
  C3_isolated_wall wBottom [wBottom] []
    (by
      show (0 : ℝ) < distanceBetweenPoints wBottom.start wBottom.endp
      rw [distanceBetweenPoints, Real.sqrt_pos]
      norm_num [wBottom])
    (by intro j hj; cases hj)
    (by intro j hj; cases hj)

theorem getAdjustedWallCorners_length (wall : Wall) (allWalls : List Wall)
    (junctions : List WallJunction) :
    (getAdjustedWallCorners wall allWalls junctions).length = 4 := by
  obtain ⟨x0, x1, x2, x3, heq, -, -, -, -⟩ :=
    getAdjustedWallCorners_shape wall allWalls junctions
  rw [heq]
  rfl

theorem length_filterMap_of_isSome {α β : Type} (f : α → Option β) (l : List α)
    (h : ∀ a ∈ l, (f a).isSome) : (l.filterMap f).length = l.length := by
  induction l with
  | nil => rfl
  | cons a t ih =>
    rw [List.filterMap_cons]
    rcases hfa : f a with - | b
    · exact absurd (h a (by simp)) (by simp [hfa])
    · simp only [List.length_cons, ih (fun x hx => h x (by simp [hx]))]

theorem innerEdgesOf_length (walls : List Wall) :
    (innerEdgesOf walls).length = walls.length := by
  rw [innerEdgesOf]
  apply length_filterMap_of_isSome
  intro wall hwall
  have h4 := getAdjustedWallCorners_length wall walls (detectJunctions walls 1)
  simp only [h4]
  simp

theorem insertByAngle_length (a : WallInnerEdge) (l : List WallInnerEdge) :
    (insertByAngle a l).length = l.length + 1 := by
  induction l with
  | nil => rfl
  | cons b t ih =>
    rw [insertByAngle]
    split
    · rfl
    · simp only [List.length_cons, ih]

theorem sortInnerEdges_length (es : List WallInnerEdge) :
    (sortInnerEdges es).length = es.length := by
  rw [sortInnerEdges]
  induction es with
  | nil => rfl
  | cons a t ih =>
    simp only [List.foldr_cons, insertByAngle_length, ih, List.length_cons]

theorem floorCornersOf_length (s : List WallInnerEdge) :
    (floorCornersOf s).length = s.length := by
  rw [floorCornersOf]
  simp

theorem getFloorPolygon_eq_none_iff (walls : List Wall) (d : ℝ) :
    getFloorPolygon walls d = none ↔
      walls.length < 2 ∨ (innerEdgesOf walls).length < 3 ∨
        (floorCornersOf (sortInnerEdges (innerEdgesOf walls))).length < 3 := by
  simp only [getFloorPolygon]
  split_ifs with h1 h2 h3 h4 <;> simp_all

/-- Claim C6: getFloorPolygon returns none exactly in the documented
insufficiency cases (fewer than 2 walls, fewer than 3 inner edges, fewer
than 3 polygon points) and otherwise returns a polygon. -/
theorem C6_floor_polygon_null_iff (walls : List Wall) (d : ℝ) :
    (getFloorPolygon walls d = none ↔
      walls.length < 2 ∨ (innerEdgesOf walls).length < 3 ∨
        (floorCornersOf (sortInnerEdges (innerEdgesOf walls))).length < 3) ∧
    ((getFloorPolygon walls d).isSome ↔
      ¬(walls.length < 2 ∨ (innerEdgesOf walls).length < 3 ∨
        (floorCornersOf (sortInnerEdges (innerEdgesOf walls))).length < 3)) := by
  have hiff := getFloorPolygon_eq_none_iff walls d
  refine ⟨hiff, ?_⟩
  rcases hval : getFloorPolygon walls d with - | v
  · simp only [Option.isSome_none, Bool.false_eq_true, false_iff, not_not]
    exact hiff.mp hval
  · simp only [Option.isSome_some, true_iff]
    intro hP
    rw [hiff.mpr hP] at hval
    cases hval

/-- Claim C10: a list of exactly two walls of positive length always yields
none from getFloorPolygon: each wall contributes exactly one inner edge, so
only two inner edges exist, below the three required. -/
theorem C10_two_walls_no_polygon (w1 w2 : Wall) (d : ℝ)
    (h1 : 0 < distanceBetweenPoints w1.start w1.endp)
    (h2 : 0 < distanceBetweenPoints w2.start w2.endp) :
    (innerEdgesOf [w1, w2]).length = 2 ∧ getFloorPolygon [w1, w2] d = none := by
  have hlen : (innerEdgesOf [w1, w2]).length = 2 := by
    rw [innerEdgesOf_length]
    rfl
  refine ⟨hlen, ?_⟩
  rw [getFloorPolygon_eq_none_iff]
  right
  left
  rw [hlen]
  norm_num

/-- Witness for C10 at two concrete perpendicular walls. -/
theorem C10_two_walls_no_polygon_witness :
    (innerEdgesOf [wBottom, wRight]).length = 2 ∧
    getFloorPolygon [wBottom, wRight] 2 = none :=
  C10_two_walls_no_polygon wBottom wRight 2
    (by
      rw [distanceBetweenPoints, Real.sqrt_pos]
      norm_num [wBottom])
    (by
      rw [distanceBetweenPoints, Real.sqrt_pos]
      norm_num [wRight])

/-- Claim C9: lineIntersection treats its two point pairs as infinite lines
and returns none exactly when the magnitude of the direction determinant is
below 0.0001 (parallel or coincident lines); for two perpendicular unit
segments crossing at their midpoints it returns that exact crossing point
(the origin for the two axis-aligned unit segments centred there). -/
theorem C9_lineIntersection_parallel_and_crossing :
    (∀ a b c d : Point,
      lineIntersection a b c d = none ↔
        |(b.x - a.x) * (d.y - c.y) - (b.y - a.y) * (d.x - c.x)| < 0.0001) ∧
    lineIntersection ⟨-(1 / 2 : ℝ), 0⟩ ⟨1 / 2, 0⟩ ⟨0, -(1 / 2)⟩ ⟨0, 1 / 2⟩ = some ⟨0, 0⟩ ∧
    lineIntersection ⟨0, 0⟩ ⟨1, 0⟩ ⟨0, 1⟩ ⟨1, 1⟩ = none := by
  refine ⟨?_, ?_, ?_⟩
  · intro a b c d
    simp only [lineIntersection]
    split_ifs with h
    · simp only [true_iff]
      exact h
    · simp only [false_iff]
      exact h
  · simp only [lineIntersection]
    norm_num
  · simp only [lineIntersection]
    norm_num

theorem simplifyPolygon_head_last {R : Type} [LinearOrderedCommRing R]
    (p : List (WU.Pt R)) (tol : R) :
    (WU.simplifyPolygon p tol).head? = p.head? ∧
    (WU.simplifyPolygon p tol).getLast? = p.getLast? := by
  by_cases h : p.length < 3
  · rw [WU.simplifyPolygon, if_pos h]
    exact ⟨rfl, rfl⟩
  · rw [WU.simplifyPolygon, if_neg h]
    have hne : p ≠ [] := by
      intro hnil
      rw [hnil] at h
      simp at h
    constructor
    · rcases p with - | ⟨a, t⟩
      · simp at h
      · simp [List.getD]
    · rw [List.getLast?_concat]
      rcases hlast : p.getLast? with - | v
      · exact absurd (List.getLast?_eq_none_iff.mp hlast) hne
      · have hv : p.getD (p.length - 1) WU.pq0 = v := by
          have hget := List.getLast?_eq_getElem? p
          rw [hlast] at hget
          rw [List.getD_eq_getElem?_getD, ← hget]
          rfl
        rw [hv]

/-- Claim C7 (amended): simplifyPolygon always keeps the first and last
vertices (for every point sequence and tolerance over any linearly ordered
commutative ring of coordinates); on the square polygon with one
exactly-collinear inserted midpoint it removes that midpoint and returns
the original corner set, and on that polygon a second application changes
nothing.  Idempotence does NOT hold for every point sequence (see the
counterexample). -/
theorem C7_simplify_keeps_ends_and_midpoint :
    (∀ (R : Type) [LinearOrderedCommRing R] (p : List (WU.Pt R)) (tol : R),
      (WU.simplifyPolygon p tol).head? = p.head? ∧
      (WU.simplifyPolygon p tol).getLast? = p.getLast?) ∧
    WU.simplifyPolygon [(⟨0, 0⟩ : WU.Pt ℤ), ⟨5, 0⟩, ⟨10, 0⟩, ⟨10, 10⟩, ⟨0, 10⟩] 1 =
      [⟨0, 0⟩, ⟨10, 0⟩, ⟨10, 10⟩, ⟨0, 10⟩] ∧
    WU.simplifyPolygon
      (WU.simplifyPolygon [(⟨0, 0⟩ : WU.Pt ℤ), ⟨5, 0⟩, ⟨10, 0⟩, ⟨10, 10⟩, ⟨0, 10⟩] 1) 1 =
      WU.simplifyPolygon [(⟨0, 0⟩ : WU.Pt ℤ), ⟨5, 0⟩, ⟨10, 0⟩, ⟨10, 10⟩, ⟨0, 10⟩] 1 := by
  refine ⟨?_, by decide, by decide⟩
  intro R inst p tol
  exact simplifyPolygon_head_last p tol

/-- Counterexample for C7: simplifyPolygon is not idempotent.  On the
sequence (0,0), (3,0), (9,2), (6,1) with tolerance 4, the first pass keeps
(3,0) (its neighbours give cross product 6, at least the tolerance) and
drops (9,2) (cross product 0), and the second pass then drops (3,0)
against its new neighbours (cross product 3, below the tolerance). -/
theorem C7_simplify_not_idempotent_counterexample :
    WU.simplifyPolygon [(⟨0, 0⟩ : WU.Pt ℤ), ⟨3, 0⟩, ⟨9, 2⟩, ⟨6, 1⟩] 4 =
      [⟨0, 0⟩, ⟨3, 0⟩, ⟨6, 1⟩] ∧
    WU.simplifyPolygon (WU.simplifyPolygon [(⟨0, 0⟩ : WU.Pt ℤ), ⟨3, 0⟩, ⟨9, 2⟩, ⟨6, 1⟩] 4) 4 =
      [⟨0, 0⟩, ⟨6, 1⟩] ∧
    WU.simplifyPolygon (WU.simplifyPolygon [(⟨0, 0⟩ : WU.Pt ℤ), ⟨3, 0⟩, ⟨9, 2⟩, ⟨6, 1⟩] 4) 4 ≠
      WU.simplifyPolygon [(⟨0, 0⟩ : WU.Pt ℤ), ⟨3, 0⟩, ⟨9, 2⟩, ⟨6, 1⟩] 4 := by
  refine ⟨by decide, by decide, by decide⟩

/-- Counterexample for C4: the per-component union tracer
(traceOuterBoundary of the wall-merge hook) has no end-reversal fallback.
On the fixture exBW the outer-edge set is traced to (2,0), (200,200),
(100,100) and then stops: no remaining outer edge starts within tolerance
of (100,100), one remaining outer edge (from (-100,50) to (100,101)) ends
within tolerance of it and would not close the loop, yet its start point
(-100,50) is never appended, so the reversal-and-append behaviour the
claim asserts for per-component tracing does not happen. -/
theorem C4_hook_no_reversal_counterexample :
    WU.hookOuterEdges (WU.hookAllEdges WU.exBW) =
      [⟨⟨2, 0⟩, ⟨200, 200⟩, "z"⟩, ⟨⟨200, 200⟩, ⟨100, 100⟩, "z"⟩,
       ⟨⟨-100, 100⟩, ⟨-100, 50⟩, "w"⟩, ⟨⟨-100, 50⟩, ⟨100, 101⟩, "w"⟩,
       ⟨⟨100, 102⟩, ⟨-200, 200⟩, "v"⟩, ⟨⟨-200, 200⟩, ⟨-100, 100⟩, "v"⟩] ∧
    WU.traceOuterBoundary WU.exBW = [⟨2, 0⟩, ⟨200, 200⟩, ⟨100, 100⟩] ∧
    WU.scanStarts (⟨100, 100⟩ : WU.Pt ℤ)
      [⟨⟨-100, 100⟩, ⟨-100, 50⟩, "w"⟩, ⟨⟨-100, 50⟩, ⟨100, 101⟩, "w"⟩,
       ⟨⟨100, 102⟩, ⟨-200, 200⟩, "v"⟩, ⟨⟨-200, 200⟩, ⟨-100, 100⟩, "v"⟩] = none ∧
    WU.distLt (⟨100, 100⟩ : WU.Pt ℤ) ⟨100, 101⟩ 2 = true ∧
    WU.distLt (⟨100, 101⟩ : WU.Pt ℤ) ⟨2, 0⟩ 2 = false ∧
    (⟨-100, 50⟩ : WU.Pt ℤ) ∉ WU.traceOuterBoundary WU.exBW := by
  refine ⟨by decide, by decide, by decide, by decide, by decide, by decide⟩

/-- Claim C4 (amended): the end-reversal fallback exists only in
tracePerimeter (wallUnion.ts).  Whenever a trace step finds no remaining
edge whose start is within tolerance of the current last point but the
end scan selects an edge (reversing it in the array), and the selected
reversed edge does not close the loop, tracePerimeter appends that
reversed edge's end point and continues; the per-component tracer
(traceOuterBoundary of the wall-merge hook) instead ends the trace,
returning the polygon unchanged. -/
theorem C4_reversal_fallback_location {R : Type} [LinearOrderedCommRing R]
    (first : WU.Pt R) (fuel : ℕ) (polygon : List (WU.Pt R))
    (remaining es2 : List (WU.Edge R)) (i : ℕ)
    (hne : ¬ remaining.length = 0)
    (hstart : WU.scanStarts (polygon.getD (polygon.length - 1) WU.pq0) remaining = none)
    (hend : WU.scanEnds (polygon.getD (polygon.length - 1) WU.pq0) remaining = (es2, some i))
    (hnoclose : WU.distLt (es2.getD i WU.eq0).endp first 2 = false) :
    WU.tracePerimeterLoop first (fuel + 1) polygon remaining =
      WU.tracePerimeterLoop first fuel (polygon ++ [(es2.getD i WU.eq0).endp]) (es2.eraseIdx i) ∧
    WU.traceOuterLoop first (fuel + 1) polygon remaining = polygon := by
  constructor
  · rw [WU.tracePerimeterLoop]
    rw [if_neg hne]
    simp only [hstart, hend, hnoclose]
    simp
  · rw [WU.traceOuterLoop]
    rw [if_neg hne]
    simp only [hstart]

/-- Witness for the amended C4 at a concrete stuck state: last point
(10,0), one remaining edge from (30,0) to (10,0); its start is too far,
its end coincides with the last point, so tracePerimeter reverses it and
appends (30,0) while the hook tracer stops. -/
theorem C4_reversal_fallback_location_witness :
    WU.tracePerimeterLoop (⟨0, 0⟩ : WU.Pt ℤ) 2 [⟨0, 0⟩, ⟨10, 0⟩] [⟨⟨30, 0⟩, ⟨10, 0⟩, "e"⟩] =
      WU.tracePerimeterLoop (⟨0, 0⟩ : WU.Pt ℤ) 1 ([⟨0, 0⟩, ⟨10, 0⟩] ++ [⟨30, 0⟩])
        ([(⟨⟨10, 0⟩, ⟨30, 0⟩, "e"⟩ : WU.Edge ℤ)].eraseIdx 0) ∧
    WU.traceOuterLoop (⟨0, 0⟩ : WU.Pt ℤ) 2 [⟨0, 0⟩, ⟨10, 0⟩] [⟨⟨30, 0⟩, ⟨10, 0⟩, "e"⟩] =
      [⟨0, 0⟩, ⟨10, 0⟩] := by
  have h := C4_reversal_fallback_location (R := ℤ) ⟨0, 0⟩ 1 [⟨0, 0⟩, ⟨10, 0⟩]
    [⟨⟨30, 0⟩, ⟨10, 0⟩, "e"⟩] [⟨⟨10, 0⟩, ⟨30, 0⟩, "e"⟩] 0
    (by decide) (by decide) (by decide) (by decide)
  exact h

/-- Claim C2: two walls sharing one endpoint within tolerance (all other
endpoint pairs farther apart, distinct ids) produce exactly one junction,
whose point is the mean of the two clustered endpoints, whose members are
both walls, and whose angles point away from the junction along each
wall. -/
theorem C2_two_wall_junction (w1 w2 : Wall) (tol : ℝ)
    (hid : w1.id ≠ w2.id)
    (hshare : distanceBetweenPoints w1.endp w2.start ≤ tol)
    (h12 : ¬ distanceBetweenPoints w1.start w1.endp ≤ tol)
    (h13 : ¬ distanceBetweenPoints w1.start w2.start ≤ tol)
    (h14 : ¬ distanceBetweenPoints w1.start w2.endp ≤ tol)
    (h24 : ¬ distanceBetweenPoints w1.endp w2.endp ≤ tol)
    (h34 : ¬ distanceBetweenPoints w2.start w2.endp ≤ tol) :
    detectJunctions [w1, w2] tol =
      [⟨⟨(w1.endp.x + (w2.start.x + 0)) / 2, (w1.endp.y + (w2.start.y + 0)) / 2⟩,
        [w1.id, w2.id],
        [atan2 (w1.start.y - w1.endp.y) (w1.start.x - w1.endp.x),
         atan2 (w2.endp.y - w2.start.y) (w2.endp.x - w2.start.x)]⟩] := by
  have b12 : (w1.id == w2.id) = false := beq_eq_false_iff_ne.mpr hid
  have dne : decide (w2.id = w1.id) = false := decide_eq_false (fun h => hid h.symm)
  have d12 : distLeB w1.start w1.endp tol = false := decide_eq_false h12
  have d13 : distLeB w1.start w2.start tol = false := decide_eq_false h13
  have d14 : distLeB w1.start w2.endp tol = false := decide_eq_false h14
  have d23 : distLeB w1.endp w2.start tol = true := decide_eq_true hshare
  have d24 : distLeB w1.endp w2.endp tol = false := decide_eq_false h24
  have d34 : distLeB w2.start w2.endp tol = false := decide_eq_false h34
  have hw : wallPoints [w1, w2] =
      [⟨w1.start, w1.id, true⟩, ⟨w1.endp, w1.id, false⟩,
       ⟨w2.start, w2.id, true⟩, ⟨w2.endp, w2.id, false⟩] := rfl
  rw [detectJunctions, hw]
  rw [gather]
  simp only [List.filter, d12, d13, d14, Bool.not_false, Bool.not_true]
  rw [gather]
  simp only [List.filter, d23, d24, Bool.not_false, Bool.not_true]
  rw [gather]
  simp only [List.filter]
  rw [gather]
  simp only [List.filterMap]
  norm_num [junctionOfCluster, dedupFirst, List.filter, dne, List.find?, b12,
    beq_self_eq_true]

/-- Witness for C2: the bottom and right walls meet at (100, 0). -/
theorem C2_two_wall_junction_witness :
    detectJunctions [wBottom, wRight] 1 =
      [⟨⟨(wBottom.endp.x + (wRight.start.x + 0)) / 2,
         (wBottom.endp.y + (wRight.start.y + 0)) / 2⟩,
        [wBottom.id, wRight.id],
        [atan2 (wBottom.start.y - wBottom.endp.y) (wBottom.start.x - wBottom.endp.x),
         atan2 (wRight.endp.y - wRight.start.y) (wRight.endp.x - wRight.start.x)]⟩] :=
  C2_two_wall_junction wBottom wRight 1
    (by simp only [wBottom, wRight]; decide)
    (by rw [dist_le_iff_sq _ _ (by norm_num : (0 : ℝ) ≤ 1)]; norm_num [dsq, wBottom, wRight])
    (by rw [dist_le_iff_sq _ _ (by norm_num : (0 : ℝ) ≤ 1)]; norm_num [dsq, wBottom, wRight])
    (by rw [dist_le_iff_sq _ _ (by norm_num : (0 : ℝ) ≤ 1)]; norm_num [dsq, wBottom, wRight])
    (by rw [dist_le_iff_sq _ _ (by norm_num : (0 : ℝ) ≤ 1)]; norm_num [dsq, wBottom, wRight])
    (by rw [dist_le_iff_sq _ _ (by norm_num : (0 : ℝ) ≤ 1)]; norm_num [dsq, wBottom, wRight])
    (by rw [dist_le_iff_sq _ _ (by norm_num : (0 : ℝ) ≤ 1)]; norm_num [dsq, wBottom, wRight])

/-- Claim C8: the bevel resolver.  At a wall end lying at a junction with
at least two member walls, with the first other wall there roughly
perpendicular (absolute dot product of unit directions below 0.3), exactly
one corner of that end is replaced by the junction point offset by
half-thickness along the wall's own direction, the choice (corner1 versus
corner2 at the start, corner4 versus corner3 at the end) made by the sign
of the cross product of the two directions; with absolute dot product at
least 0.3 the corners of that end stay unmitered. -/
theorem C8_bevel_rule (junctions : List MJunction) (wall : Wall) :
    (∀ (j : MJunction) (ow : Wall × Bool) (odirX odirY : ℝ),
      junctions.find? (fun jj => distLtB jj.point wall.start 2) = some j →
      2 ≤ j.walls.length →
      j.walls.find? (fun wb => wb.1.id != wall.id) = some ow →
      getWallDirection ow.1 ow.2 = ⟨odirX, odirY⟩ →
      (((|(wall.endp.x - wall.start.x) / distanceBetweenPoints wall.start wall.endp * odirX +
          (wall.endp.y - wall.start.y) / distanceBetweenPoints wall.start wall.endp * odirY| < 0.3) →
        ((0 < (wall.endp.x - wall.start.x) / distanceBetweenPoints wall.start wall.endp * odirY -
            (wall.endp.y - wall.start.y) / distanceBetweenPoints wall.start wall.endp * odirX →
          (miteredCornersFor junctions wall).getD 0 p0 =
            ⟨j.point.x + (wall.endp.x - wall.start.x) / distanceBetweenPoints wall.start wall.endp * (wall.thickness / 2),
             j.point.y + (wall.endp.y - wall.start.y) / distanceBetweenPoints wall.start wall.endp * (wall.thickness / 2)⟩ ∧
          (miteredCornersFor junctions wall).getD 1 p0 = (calculateWallCorners wall).corner2) ∧
         (¬ 0 < (wall.endp.x - wall.start.x) / distanceBetweenPoints wall.start wall.endp * odirY -
            (wall.endp.y - wall.start.y) / distanceBetweenPoints wall.start wall.endp * odirX →
          (miteredCornersFor junctions wall).getD 0 p0 = (calculateWallCorners wall).corner1 ∧
          (miteredCornersFor junctions wall).getD 1 p0 =
            ⟨j.point.x + (wall.endp.x - wall.start.x) / distanceBetweenPoints wall.start wall.endp * (wall.thickness / 2),
             j.point.y + (wall.endp.y - wall.start.y) / distanceBetweenPoints wall.start wall.endp * (wall.thickness / 2)⟩))) ∧
       (¬ (|(wall.endp.x - wall.start.x) / distanceBetweenPoints wall.start wall.endp * odirX +
           (wall.endp.y - wall.start.y) / distanceBetweenPoints wall.start wall.endp * odirY| < 0.3) →
        (miteredCornersFor junctions wall).getD 0 p0 = (calculateWallCorners wall).corner1 ∧
        (miteredCornersFor junctions wall).getD 1 p0 = (calculateWallCorners wall).corner2))) ∧
    (∀ (j : MJunction) (ow : Wall × Bool) (odirX odirY : ℝ),
      junctions.find? (fun jj => distLtB jj.point wall.endp 2) = some j →
      2 ≤ j.walls.length →
      j.walls.find? (fun wb => wb.1.id != wall.id) = some ow →
      getWallDirection ow.1 ow.2 = ⟨odirX, odirY⟩ →
      (((|-((wall.endp.x - wall.start.x) / distanceBetweenPoints wall.start wall.endp) * odirX +
          -((wall.endp.y - wall.start.y) / distanceBetweenPoints wall.start wall.endp) * odirY| < 0.3) →
        ((0 < -((wall.endp.x - wall.start.x) / distanceBetweenPoints wall.start wall.endp) * odirY -
            -((wall.endp.y - wall.start.y) / distanceBetweenPoints wall.start wall.endp) * odirX →
          (miteredCornersFor junctions wall).getD 3 p0 =
            ⟨j.point.x - (wall.endp.x - wall.start.x) / distanceBetweenPoints wall.start wall.endp * (wall.thickness / 2),
             j.point.y - (wall.endp.y - wall.start.y) / distanceBetweenPoints wall.start wall.endp * (wall.thickness / 2)⟩ ∧
          (miteredCornersFor junctions wall).getD 2 p0 = (calculateWallCorners wall).corner3) ∧
         (¬ 0 < -((wall.endp.x - wall.start.x) / distanceBetweenPoints wall.start wall.endp) * odirY -
            -((wall.endp.y - wall.start.y) / distanceBetweenPoints wall.start wall.endp) * odirX →
          (miteredCornersFor junctions wall).getD 2 p0 =
            ⟨j.point.x - (wall.endp.x - wall.start.x) / distanceBetweenPoints wall.start wall.endp * (wall.thickness / 2),
             j.point.y - (wall.endp.y - wall.start.y) / distanceBetweenPoints wall.start wall.endp * (wall.thickness / 2)⟩ ∧
          (miteredCornersFor junctions wall).getD 3 p0 = (calculateWallCorners wall).corner4))) ∧
       (¬ (|-((wall.endp.x - wall.start.x) / distanceBetweenPoints wall.start wall.endp) * odirX +
           -((wall.endp.y - wall.start.y) / distanceBetweenPoints wall.start wall.endp) * odirY| < 0.3) →
        (miteredCornersFor junctions wall).getD 2 p0 = (calculateWallCorners wall).corner3 ∧
        (miteredCornersFor junctions wall).getD 3 p0 = (calculateWallCorners wall).corner4))) := by
  have hfold : Real.sqrt ((wall.endp.x - wall.start.x) * (wall.endp.x - wall.start.x) +
      (wall.endp.y - wall.start.y) * (wall.endp.y - wall.start.y)) =
      distanceBetweenPoints wall.start wall.endp := rfl
  constructor
  · intro j ow odirX odirY hj hlen hfind hdir
    constructor
    · intro hdot
      constructor
      · intro hcross
        simp only [miteredCornersFor, hj, hfind, hdir, hfold]
        rw [if_pos hlen, if_pos hdot, if_pos hcross]
        exact ⟨rfl, rfl⟩
      · intro hcross
        simp only [miteredCornersFor, hj, hfind, hdir, hfold]
        rw [if_pos hlen, if_pos hdot, if_neg hcross]
        exact ⟨rfl, rfl⟩
    · intro hdot
      simp only [miteredCornersFor, hj, hfind, hdir, hfold]
      rw [if_pos hlen, if_neg hdot]
      exact ⟨rfl, rfl⟩
  · intro j ow odirX odirY hj hlen hfind hdir
    constructor
    · intro hdot
      constructor
      · intro hcross
        simp only [miteredCornersFor, hj, hfind, hdir, hfold]
        rw [if_pos hlen, if_pos hdot, if_pos hcross]
        exact ⟨rfl, rfl⟩
      · intro hcross
        simp only [miteredCornersFor, hj, hfind, hdir, hfold]
        rw [if_pos hlen, if_pos hdot, if_neg hcross]
        exact ⟨rfl, rfl⟩
    · intro hdot
      simp only [miteredCornersFor, hj, hfind, hdir, hfold]
      rw [if_pos hlen, if_neg hdot]
      exact ⟨rfl, rfl⟩

/-- Witness for C8: the right wall at its start junction (100, 0) with the
bottom wall, perpendicular directions, cross product positive, so corner1
becomes the bevel point and corner2 stays unmitered. -/
theorem C8_bevel_rule_witness :
    (miteredCornersFor [⟨⟨100, 0⟩, [(wBottom, false), (wRight, true)]⟩] wRight).getD 0 p0 =
      ⟨(100 : ℝ) + (wRight.endp.x - wRight.start.x) / distanceBetweenPoints wRight.start wRight.endp * (wRight.thickness / 2),
       (0 : ℝ) + (wRight.endp.y - wRight.start.y) / distanceBetweenPoints wRight.start wRight.endp * (wRight.thickness / 2)⟩ ∧
    (miteredCornersFor [⟨⟨100, 0⟩, [(wBottom, false), (wRight, true)]⟩] wRight).getD 1 p0 =
      (calculateWallCorners wRight).corner2 := by
  have hdist : distanceBetweenPoints wRight.start wRight.endp = 100 := by
    rw [distanceBetweenPoints]
    rw [show ((wRight.endp.x - wRight.start.x) * (wRight.endp.x - wRight.start.x) +
      (wRight.endp.y - wRight.start.y) * (wRight.endp.y - wRight.start.y)) = (100 : ℝ) ^ 2 by
        norm_num [wRight]]
    rw [Real.sqrt_sq]
    norm_num
  have hdistB : distanceBetweenPoints wBottom.start wBottom.endp = 100 := by
    rw [distanceBetweenPoints]
    rw [show ((wBottom.endp.x - wBottom.start.x) * (wBottom.endp.x - wBottom.start.x) +
      (wBottom.endp.y - wBottom.start.y) * (wBottom.endp.y - wBottom.start.y)) = (100 : ℝ) ^ 2 by
        norm_num [wBottom]]
    rw [Real.sqrt_sq]
    norm_num
  have hj : ([⟨⟨100, 0⟩, [(wBottom, false), (wRight, true)]⟩] : List MJunction).find?
      (fun jj => distLtB jj.point wRight.start 2) = some ⟨⟨100, 0⟩, [(wBottom, false), (wRight, true)]⟩ := by
    have hb : distLtB (⟨100, 0⟩ : Point) wRight.start 2 = true := by
      apply decide_eq_true
      rw [distanceBetweenPoints]
      rw [show ((wRight.start.x - (100 : ℝ)) * (wRight.start.x - 100) +
        (wRight.start.y - (0 : ℝ)) * (wRight.start.y - 0)) = 0 by norm_num [wRight]]
      rw [Real.sqrt_zero]
      norm_num
    simp [List.find?, hb]
  have hfind : ([(wBottom, false), (wRight, true)] : List (Wall × Bool)).find?
      (fun wb => wb.1.id != wRight.id) = some (wBottom, false) := by
    have hb : (wBottom.id != wRight.id) = true := by
      simp only [wBottom, wRight]
      decide
    simp [List.find?, hb]
  have hdir : getWallDirection wBottom false = (⟨-1, 0⟩ : Point) := by
    rw [getWallDirection]
    simp only [Bool.false_eq_true, if_neg]
    rw [show Real.sqrt ((wBottom.endp.x - wBottom.start.x) * (wBottom.endp.x - wBottom.start.x) +
      (wBottom.endp.y - wBottom.start.y) * (wBottom.endp.y - wBottom.start.y)) =
      distanceBetweenPoints wBottom.start wBottom.endp from rfl, hdistB]
    norm_num [wBottom]
  have happ := (C8_bevel_rule [⟨⟨100, 0⟩, [(wBottom, false), (wRight, true)]⟩] wRight).1
    ⟨⟨100, 0⟩, [(wBottom, false), (wRight, true)]⟩ (wBottom, false) (-1) 0
    hj (by norm_num) hfind hdir
  have hdot : |(wRight.endp.x - wRight.start.x) / distanceBetweenPoints wRight.start wRight.endp * (-1) +
      (wRight.endp.y - wRight.start.y) / distanceBetweenPoints wRight.start wRight.endp * 0| < 0.3 := by
    rw [hdist]
    norm_num [wRight]
  have hcross : (0 : ℝ) < (wRight.endp.x - wRight.start.x) / distanceBetweenPoints wRight.start wRight.endp * 0 -
      (wRight.endp.y - wRight.start.y) / distanceBetweenPoints wRight.start wRight.endp * (-1) := by
    rw [hdist]
    norm_num [wRight]
  exact (happ.1 hdot).1 hcross

theorem distLeB_false_of_sq (p q : Point) (c : ℝ) (hc : 0 ≤ c) (h : c * c < dsq p q) :
    distLeB p q c = false := by
  apply decide_eq_false
  rw [dist_le_iff_sq _ _ hc]
  exact not_le.mpr h

theorem c5_detect : detectJunctions [wBottom, wTop, wLeft] 1 = [] := by
  have hw : wallPoints [wBottom, wTop, wLeft] =
      [⟨⟨0, 0⟩, "w1", true⟩, ⟨⟨100, 0⟩, "w1", false⟩,
       ⟨⟨30, 50⟩, "f2", true⟩, ⟨⟨100, 50⟩, "f2", false⟩,
       ⟨⟨0, 60⟩, "f3", true⟩, ⟨⟨0, -10⟩, "f3", false⟩] := rfl
  have d12 : distLeB ⟨0, 0⟩ ⟨100, 0⟩ 1 = false :=
    distLeB_false_of_sq _ _ _ (by norm_num) (by norm_num [dsq])
  have d13 : distLeB ⟨0, 0⟩ ⟨30, 50⟩ 1 = false :=
    distLeB_false_of_sq _ _ _ (by norm_num) (by norm_num [dsq])
  have d14 : distLeB ⟨0, 0⟩ ⟨100, 50⟩ 1 = false :=
    distLeB_false_of_sq _ _ _ (by norm_num) (by norm_num [dsq])
  have d15 : distLeB ⟨0, 0⟩ ⟨0, 60⟩ 1 = false :=
    distLeB_false_of_sq _ _ _ (by norm_num) (by norm_num [dsq])
  have d16 : distLeB ⟨0, 0⟩ ⟨0, -10⟩ 1 = false :=
    distLeB_false_of_sq _ _ _ (by norm_num) (by norm_num [dsq])
  have d23 : distLeB ⟨100, 0⟩ ⟨30, 50⟩ 1 = false :=
    distLeB_false_of_sq _ _ _ (by norm_num) (by norm_num [dsq])
  have d24 : distLeB ⟨100, 0⟩ ⟨100, 50⟩ 1 = false :=
    distLeB_false_of_sq _ _ _ (by norm_num) (by norm_num [dsq])
  have d25 : distLeB ⟨100, 0⟩ ⟨0, 60⟩ 1 = false :=
    distLeB_false_of_sq _ _ _ (by norm_num) (by norm_num [dsq])
  have d26 : distLeB ⟨100, 0⟩ ⟨0, -10⟩ 1 = false :=
    distLeB_false_of_sq _ _ _ (by norm_num) (by norm_num [dsq])
  have d34 : distLeB ⟨30, 50⟩ ⟨100, 50⟩ 1 = false :=
    distLeB_false_of_sq _ _ _ (by norm_num) (by norm_num [dsq])
  have d35 : distLeB ⟨30, 50⟩ ⟨0, 60⟩ 1 = false :=
    distLeB_false_of_sq _ _ _ (by norm_num) (by norm_num [dsq])
  have d36 : distLeB ⟨30, 50⟩ ⟨0, -10⟩ 1 = false :=
    distLeB_false_of_sq _ _ _ (by norm_num) (by norm_num [dsq])
  have d45 : distLeB ⟨100, 50⟩ ⟨0, 60⟩ 1 = false :=
    distLeB_false_of_sq _ _ _ (by norm_num) (by norm_num [dsq])
  have d46 : distLeB ⟨100, 50⟩ ⟨0, -10⟩ 1 = false :=
    distLeB_false_of_sq _ _ _ (by norm_num) (by norm_num [dsq])
  have d56 : distLeB ⟨0, 60⟩ ⟨0, -10⟩ 1 = false :=
    distLeB_false_of_sq _ _ _ (by norm_num) (by norm_num [dsq])
  rw [detectJunctions, hw]
  rw [gather]
  simp only [List.filter, d12, d13, d14, d15, d16, Bool.not_false]
  rw [gather]
  simp only [List.filter, d23, d24, d25, d26, Bool.not_false]
  rw [gather]
  simp only [List.filter, d34, d35, d36, Bool.not_false]
  rw [gather]
  simp only [List.filter, d45, d46, Bool.not_false]
  rw [gather]
  simp only [List.filter, d56, Bool.not_false]
  rw [gather]
  simp only [List.filter]
  rw [gather]
  simp [List.filterMap]

theorem c5_center : calculateWallsCenter [wBottom, wTop, wLeft] = ⟨115 / 3, 25⟩ := by
  simp only [calculateWallsCenter, wBottom, wTop, wLeft]
  simp only [List.map, List.sum_cons, List.sum_nil, List.length_cons, List.length_nil]
  norm_num

theorem c5_adj1 : getAdjustedWallCorners wBottom [wBottom, wTop, wLeft] [] =
    [⟨0, 5⟩, ⟨0, -5⟩, ⟨100, -5⟩, ⟨100, 5⟩] := by
  simp only [getAdjustedWallCorners, List.find?_nil]
  simp only [calculateWallCorners, wBottom]
  rw [show ((100 - 0 : ℝ)) * (100 - 0) + (0 - 0) * (0 - 0) = (100 : ℝ) ^ 2 by norm_num]
  rw [Real.sqrt_sq (by norm_num : (0 : ℝ) ≤ 100)]
  norm_num

theorem c5_adj2 : getAdjustedWallCorners wTop [wBottom, wTop, wLeft] [] =
    [⟨30, 55⟩, ⟨30, 45⟩, ⟨100, 45⟩, ⟨100, 55⟩] := by
  simp only [getAdjustedWallCorners, List.find?_nil]
  simp only [calculateWallCorners, wTop]
  rw [show ((100 - 30 : ℝ)) * (100 - 30) + (50 - 50) * (50 - 50) = (70 : ℝ) ^ 2 by norm_num]
  rw [Real.sqrt_sq (by norm_num : (0 : ℝ) ≤ 70)]
  norm_num

theorem c5_adj3 : getAdjustedWallCorners wLeft [wBottom, wTop, wLeft] [] =
    [⟨5, 60⟩, ⟨-5, 60⟩, ⟨-5, -10⟩, ⟨5, -10⟩] := by
  simp only [getAdjustedWallCorners, List.find?_nil]
  simp only [calculateWallCorners, wLeft]
  rw [show ((0 - 0 : ℝ)) * (0 - 0) + (-10 - 60) * (-10 - 60) = (70 : ℝ) ^ 2 by norm_num]
  rw [Real.sqrt_sq (by norm_num : (0 : ℝ) ≤ 70)]
  norm_num

theorem c5_idx1 : getInnerEdgeIndices [⟨0, 5⟩, ⟨0, -5⟩, ⟨100, -5⟩, ⟨100, 5⟩] ⟨115 / 3, 25⟩ = (0, 3) := by
  rw [getInnerEdgeIndices]
  rw [if_neg (by norm_num)]
  rw [if_neg ?hcmp]
  case hcmp =>
    rw [Real.sqrt_lt_sqrt_iff (by positivity)]
    norm_num [List.getD]

theorem c5_idx2 : getInnerEdgeIndices [⟨30, 55⟩, ⟨30, 45⟩, ⟨100, 45⟩, ⟨100, 55⟩] ⟨115 / 3, 25⟩ = (1, 2) := by
  rw [getInnerEdgeIndices]
  rw [if_neg (by norm_num)]
  rw [if_pos ?hcmp]
  case hcmp =>
    rw [Real.sqrt_lt_sqrt_iff (by positivity)]
    norm_num [List.getD]

theorem c5_idx3 : getInnerEdgeIndices [⟨5, 60⟩, ⟨-5, 60⟩, ⟨-5, -10⟩, ⟨5, -10⟩] ⟨115 / 3, 25⟩ = (0, 3) := by
  rw [getInnerEdgeIndices]
  rw [if_neg (by norm_num)]
  rw [if_neg ?hcmp]
  case hcmp =>
    rw [Real.sqrt_lt_sqrt_iff (by positivity)]
    norm_num [List.getD]

theorem c5_inner : innerEdgesOf [wBottom, wTop, wLeft] =
    [⟨wBottom, ⟨0, 5⟩, ⟨100, 5⟩, atan2 (-20) (35 / 3)⟩,
     ⟨wTop, ⟨30, 45⟩, ⟨100, 45⟩, atan2 20 (80 / 3)⟩,
     ⟨wLeft, ⟨5, 60⟩, ⟨5, -10⟩, atan2 0 (-(100 / 3))⟩] := by
  simp only [innerEdgesOf, c5_detect, c5_center, List.filterMap,
    c5_adj1, c5_adj2, c5_adj3, c5_idx1, c5_idx2, c5_idx3]
  norm_num [List.getD]

theorem c5_angle12 : atan2 (-20) (35 / 3) ≤ atan2 20 (80 / 3) := by
  rw [atan2, atan2]
  rw [if_pos (by norm_num : (0 : ℝ) < 35 / 3), if_pos (by norm_num : (0 : ℝ) < 80 / 3)]
  exact Real.arctan_strictMono.monotone (by norm_num)

theorem c5_angle23 : atan2 20 (80 / 3) ≤ atan2 0 (-(100 / 3)) := by
  rw [atan2, atan2]
  rw [if_pos (by norm_num : (0 : ℝ) < 80 / 3)]
  rw [if_neg (by norm_num : ¬ (0 : ℝ) < -(100 / 3))]
  rw [if_pos (by norm_num : (-(100 / 3) : ℝ) < 0)]
  rw [if_pos (by norm_num : (0 : ℝ) ≤ 0)]
  rw [show ((0 : ℝ) / (-(100 / 3))) = 0 by norm_num, Real.arctan_zero, zero_add]
  have h1 := Real.arctan_lt_pi_div_two (20 / (80 / 3))
  have h2 := Real.pi_pos
  linarith

theorem c5_sorted : sortInnerEdges
    [⟨wBottom, ⟨0, 5⟩, ⟨100, 5⟩, atan2 (-20) (35 / 3)⟩,
     ⟨wTop, ⟨30, 45⟩, ⟨100, 45⟩, atan2 20 (80 / 3)⟩,
     ⟨wLeft, ⟨5, 60⟩, ⟨5, -10⟩, atan2 0 (-(100 / 3))⟩] =
    [⟨wBottom, ⟨0, 5⟩, ⟨100, 5⟩, atan2 (-20) (35 / 3)⟩,
     ⟨wTop, ⟨30, 45⟩, ⟨100, 45⟩, atan2 20 (80 / 3)⟩,
     ⟨wLeft, ⟨5, 60⟩, ⟨5, -10⟩, atan2 0 (-(100 / 3))⟩] := by
  rw [sortInnerEdges]
  simp only [List.foldr_cons, List.foldr_nil]
  rw [insertByAngle]
  rw [insertByAngle]
  rw [if_pos c5_angle23]
  rw [insertByAngle]
  rw [if_pos c5_angle12]

theorem c5_li12 : lineIntersection ⟨0, 5⟩ ⟨100, 5⟩ ⟨30, 45⟩ ⟨100, 45⟩ = none := by
  rw [lineIntersection]
  rw [if_pos (by norm_num)]

theorem c5_li23 : lineIntersection ⟨30, 45⟩ ⟨100, 45⟩ ⟨5, 60⟩ ⟨5, -10⟩ = some ⟨5, 45⟩ := by
  rw [lineIntersection]
  rw [if_neg (by norm_num)]
  norm_num

theorem c5_li31 : lineIntersection ⟨5, 60⟩ ⟨5, -10⟩ ⟨0, 5⟩ ⟨100, 5⟩ = some ⟨5, 5⟩ := by
  rw [lineIntersection]
  rw [if_neg (by norm_num)]
  norm_num

theorem c5_floor_corners : floorCornersOf
    [⟨wBottom, ⟨0, 5⟩, ⟨100, 5⟩, atan2 (-20) (35 / 3)⟩,
     ⟨wTop, ⟨30, 45⟩, ⟨100, 45⟩, atan2 20 (80 / 3)⟩,
     ⟨wLeft, ⟨5, 60⟩, ⟨5, -10⟩, atan2 0 (-(100 / 3))⟩] =
    [⟨0, 5⟩, ⟨5, 45⟩, ⟨5, 5⟩] := by
  have hr : List.range 3 = [0, 1, 2] := rfl
  rw [floorCornersOf]
  simp only [List.length_cons, List.length_nil]
  rw [hr]
  simp only [List.map, List.getD, List.get?, Option.getD_some]
  norm_num [c5_li12, c5_li23, c5_li31]

theorem c5_polygon : getFloorPolygon [wBottom, wTop, wLeft] 0 =
    some [⟨0, 5⟩, ⟨5, 45⟩, ⟨5, 5⟩] := by
  simp only [getFloorPolygon, c5_inner, c5_sorted, c5_floor_corners]
  norm_num

theorem c5_seg_far : distanceToLineSegment ⟨0, 5⟩ ⟨30, 45⟩ ⟨100, 45⟩ = 50 := by
  rw [distanceToLineSegment, if_neg (by norm_num)]
  norm_num
  rw [show (2500 : ℝ) = 50 ^ 2 by norm_num]
  exact Real.sqrt_sq (by norm_num)

theorem c5_seg_near : distanceToLineSegment ⟨100, 5⟩ ⟨30, 45⟩ ⟨100, 45⟩ = 40 := by
  rw [distanceToLineSegment, if_neg (by norm_num)]
  norm_num
  rw [show (1600 : ℝ) = 40 ^ 2 by norm_num]
  exact Real.sqrt_sq (by norm_num)

/-- Counterexample for C5.  On the three fixture walls the first two
angularly sorted inner edges, from (0,5) to (100,5) and from (30,45) to
(100,45), are parallel; the vertex contributed for the pair is the first
element of the returned polygon, (0,5) (the endpoint of the current edge
nearest to the start of the next edge).  But (0,5) is not the endpoint
nearest across the pair among the four endpoints: the candidate (100,5)
lies strictly closer to the opposite segment (40 versus 50), and even the
closest cross pair of endpoints, (100,5) with (100,45), is strictly closer
than (0,5) is to anything on the other edge. -/
theorem C5_parallel_fallback_counterexample :
    getFloorPolygon [wBottom, wTop, wLeft] 0 = some [⟨0, 5⟩, ⟨5, 45⟩, ⟨5, 5⟩] ∧
    sortInnerEdges (innerEdgesOf [wBottom, wTop, wLeft]) =
      [⟨wBottom, ⟨0, 5⟩, ⟨100, 5⟩, atan2 (-20) (35 / 3)⟩,
       ⟨wTop, ⟨30, 45⟩, ⟨100, 45⟩, atan2 20 (80 / 3)⟩,
       ⟨wLeft, ⟨5, 60⟩, ⟨5, -10⟩, atan2 0 (-(100 / 3))⟩] ∧
    lineIntersection ⟨0, 5⟩ ⟨100, 5⟩ ⟨30, 45⟩ ⟨100, 45⟩ = none ∧
    distanceToLineSegment ⟨100, 5⟩ ⟨30, 45⟩ ⟨100, 45⟩ <
      distanceToLineSegment ⟨0, 5⟩ ⟨30, 45⟩ ⟨100, 45⟩ ∧
    distanceBetweenPoints ⟨100, 5⟩ ⟨100, 45⟩ < distanceBetweenPoints ⟨0, 5⟩ ⟨30, 45⟩ ∧
    distanceBetweenPoints ⟨100, 5⟩ ⟨100, 45⟩ < distanceBetweenPoints ⟨0, 5⟩ ⟨100, 45⟩ := by
  refine ⟨c5_polygon, ?_, c5_li12, ?_, ?_, ?_⟩
  · rw [c5_inner]
    exact c5_sorted
  · rw [c5_seg_near, c5_seg_far]
    norm_num
  · rw [distanceBetweenPoints, distanceBetweenPoints]
    rw [Real.sqrt_lt_sqrt_iff (by positivity)]
    norm_num
  · rw [distanceBetweenPoints, distanceBetweenPoints]
    rw [Real.sqrt_lt_sqrt_iff (by positivity)]
    norm_num

/-- Claim C5 (amended): in getFloorPolygon, a consecutive pair of
angularly sorted inner edges whose infinite lines are parallel contributes
as its vertex an endpoint of the CURRENT edge only: its start if that is
strictly closer to the start of the next edge than its end is, otherwise
its end.  The endpoints of the next edge are never candidates, and
distances are measured to the next edge's start point only. -/
theorem C5_parallel_fallback_rule (sorted : List WallInnerEdge) (i : ℕ)
    (hi : i < sorted.length)
    (hpar : |((sorted.getD i ie0).endp.x - (sorted.getD i ie0).start.x) *
        ((sorted.getD ((i + 1) % sorted.length) ie0).endp.y -
         (sorted.getD ((i + 1) % sorted.length) ie0).start.y) -
      ((sorted.getD i ie0).endp.y - (sorted.getD i ie0).start.y) *
        ((sorted.getD ((i + 1) % sorted.length) ie0).endp.x -
         (sorted.getD ((i + 1) % sorted.length) ie0).start.x)| < 0.0001) :
    (floorCornersOf sorted).getD i p0 =
      if distanceBetweenPoints (sorted.getD i ie0).start
          (sorted.getD ((i + 1) % sorted.length) ie0).start <
         distanceBetweenPoints (sorted.getD i ie0).endp
          (sorted.getD ((i + 1) % sorted.length) ie0).start
      then (sorted.getD i ie0).start else (sorted.getD i ie0).endp := by
  have hli : lineIntersection (sorted.getD i ie0).start (sorted.getD i ie0).endp
      (sorted.getD ((i + 1) % sorted.length) ie0).start
      (sorted.getD ((i + 1) % sorted.length) ie0).endp = none := by
    rw [lineIntersection]
    rw [if_pos hpar]
  rw [floorCornersOf]
  rw [List.getD_eq_getElem?_getD, List.getElem?_map]
  rw [List.getElem?_range hi]
  simp only [Option.map_some', Option.map_some, Option.getD_some, hli]
  have hd1 : Real.sqrt (((sorted.getD i ie0).start.x -
        (sorted.getD ((i + 1) % sorted.length) ie0).start.x) ^ 2 +
      ((sorted.getD i ie0).start.y -
        (sorted.getD ((i + 1) % sorted.length) ie0).start.y) ^ 2) =
      distanceBetweenPoints (sorted.getD i ie0).start
        (sorted.getD ((i + 1) % sorted.length) ie0).start := by
    rw [distanceBetweenPoints]
    congr 1
    ring
  have hd2 : Real.sqrt (((sorted.getD i ie0).endp.x -
        (sorted.getD ((i + 1) % sorted.length) ie0).start.x) ^ 2 +
      ((sorted.getD i ie0).endp.y -
        (sorted.getD ((i + 1) % sorted.length) ie0).start.y) ^ 2) =
      distanceBetweenPoints (sorted.getD i ie0).endp
        (sorted.getD ((i + 1) % sorted.length) ie0).start := by
    rw [distanceBetweenPoints]
    congr 1
    ring
  rw [hd1, hd2]

/-- Witness for the amended C5 at the fixture configuration, pair index 0
(the two parallel horizontal inner edges). -/
theorem C5_parallel_fallback_rule_witness :
    (floorCornersOf
      [⟨wBottom, ⟨0, 5⟩, ⟨100, 5⟩, atan2 (-20) (35 / 3)⟩,
       ⟨wTop, ⟨30, 45⟩, ⟨100, 45⟩, atan2 20 (80 / 3)⟩,
       ⟨wLeft, ⟨5, 60⟩, ⟨5, -10⟩, atan2 0 (-(100 / 3))⟩]).getD 0 p0 =
      if distanceBetweenPoints (⟨0, 5⟩ : Point) ⟨30, 45⟩ <
         distanceBetweenPoints (⟨100, 5⟩ : Point) ⟨30, 45⟩
      then (⟨0, 5⟩ : Point) else ⟨100, 5⟩ :=
  C5_parallel_fallback_rule
    [⟨wBottom, ⟨0, 5⟩, ⟨100, 5⟩, atan2 (-20) (35 / 3)⟩,
     ⟨wTop, ⟨30, 45⟩, ⟨100, 45⟩, atan2 20 (80 / 3)⟩,
     ⟨wLeft, ⟨5, 60⟩, ⟨5, -10⟩, atan2 0 (-(100 / 3))⟩] 0
    (by norm_num)
    (by norm_num [List.getD])
